import Mathlib

/-!
# ISEF memory test: a verification development of `script.js`

The page script drives a word-pair memory quiz: a week number selects one of
three built-in wordsets, the twelve pairs are studied under a repeating timer,
and three recall rounds are scored.  The script's global variables and the few
page elements it reads back become one explicit `State`; every function of the
script becomes a Lean function on that state; `Math.random()` becomes an
explicit argument.
-/

namespace MemoryTest

/-! ## JavaScript numbers, as far as the week number needs them -/

/-- A JavaScript Number: `NaN`, the two infinities, or a finite value.  Every
finite double is a rational, so finite values are carried as rationals. -/
inductive JSNum where
  | nan
  | posInf
  | negInf
  | fin (q : ℚ)
  deriving DecidableEq

/-- Structural binary logarithm with fuel: `ilog2 n n = ⌊log₂ n⌋` for `n ≥ 1`. -/
def ilog2 : Nat → Nat → Nat
  | 0, _ => 0
  | f + 1, n => if n < 2 then 0 else ilog2 f (n / 2) + 1

/-- The exponent `e` with `2^e ≤ |q| < 2^(e+1)`, for `q ≠ 0`. -/
def floorLog2 (q : ℚ) : Int :=
  let e0 : Int := (ilog2 q.num.natAbs q.num.natAbs : Int) - (ilog2 q.den q.den : Int)
  if (2 : ℚ) ^ e0 ≤ |q| then e0 else e0 - 1

/-- Rounding to the nearest integer, ties to the even one. -/
def roundHalfEven (m : ℚ) : Int :=
  let f := ⌊m⌋
  let r := m - f
  if r < 1 / 2 then f
  else if 1 / 2 < r then f + 1
  else if f % 2 = 0 then f else f + 1

/-- The binary64 value nearest to a rational (round to nearest, ties to even);
53 significant bits, least exponent -1022, overflow to an infinity. -/
def JSNum.ofRat (q : ℚ) : JSNum :=
  if q = 0 then .fin 0
  else
    let e := max (floorLog2 q) (-1022)
    let ulp : ℚ := (2 : ℚ) ^ (e - 52)
    let r : ℚ := (roundHalfEven (q / ulp) : ℚ) * ulp
    if (2 : ℚ) ^ (1024 : Int) ≤ r then .posInf
    else if r ≤ -(2 : ℚ) ^ (1024 : Int) then .negInf
    else .fin r

/-- Truncation toward zero. -/
def truncate (x : ℚ) : Int := if 0 ≤ x then ⌊x⌋ else ⌈x⌉

/-- The remainder `x % m` for a finite non-zero literal `m`: the sign follows
the dividend, the result is exact, and a non-finite dividend gives `NaN`. -/
def JSNum.rem (x : JSNum) (m : ℚ) : JSNum :=
  match x with
  | .fin q => .fin (q - m * truncate (q / m))
  | _ => .nan

/-- The sum `x + c` for a finite literal `c`, correctly rounded. -/
def JSNum.add (x : JSNum) (c : ℚ) : JSNum :=
  match x with
  | .fin q => JSNum.ofRat (q + c)
  | .nan => .nan
  | .posInf => .posInf
  | .negInf => .negInf

/-- The test `!x`: a Number is falsy when it is `NaN` or zero. -/
def JSNum.falsy : JSNum → Bool
  | .nan => true
  | .fin q => decide (q = 0)
  | _ => false

/-- The comparison `x < c` for a finite literal `c`; false on `NaN`. -/
def JSNum.lt (x : JSNum) (c : ℚ) : Bool :=
  match x with
  | .nan => false
  | .posInf => false
  | .negInf => true
  | .fin q => decide (q < c)

/-! ## Configuration -/

/-- The three built-in wordsets, twelve pairs each. -/
def WORDSETS : List (List (String × String)) :=
  [ [ ("cat", "ring"), ("sun", "jam"), ("bed", "rope"), ("fish", "bell"),
      ("tree", "mask"), ("star", "shoe"), ("book", "coal"), ("rain", "gold"),
      ("glass", "farm"), ("road", "leaf"), ("bread", "wave"), ("clock", "sand") ],
    [ ("ship", "barn"), ("salt", "glove"), ("stone", "card"), ("wind", "seat"),
      ("lamp", "knot"), ("foot", "surf"), ("milk", "twig"), ("ring", "cup"),
      ("seed", "mine"), ("bell", "sky"), ("leaf", "hook"), ("mask", "page") ],
    [ ("coal", "bed"), ("gate", "fish"), ("wave", "bread"), ("sand", "star"),
      ("chair", "rain"), ("hand", "glass"), ("card", "sun"), ("wheel", "book"),
      ("barn", "cat"), ("rope", "tree"), ("bird", "road"), ("jam", "ship") ] ]

/-! ## Utilities -/

/-- The lookup `map[idx]` in `{ 1: 0, 2: 1, 0: 2 }`: a key that is not one of
the three gives `undefined`. -/
def wordsetMap (idx : JSNum) : Option Nat :=
  match idx with
  | .fin q => if q = 1 then some 0 else if q = 2 then some 1 else if q = 0 then some 2 else none
  | _ => none

/-- The function `selectWordset(weekNum)`: `map[((weekNum % 3) + 3) % 3]`. -/
def selectWordset (weekNum : JSNum) : Option Nat :=
  let idx := ((weekNum.rem 3).add 3).rem 3
  wordsetMap idx

/-- The draws of `Math.random()` inside one call of `shuffle`, by loop index:
at index `i` the script computes `j = floor(Math.random() * (i + 1))`, a value
in `0..i`; the draw is an arbitrary natural number reduced modulo `i + 1`. -/
abbrev Draws := Nat → Nat

/-- The destructuring swap `[a[i], a[j]] = [a[j], a[i]]`: both reads happen
before both writes.  The loop only calls it with `i` and `j` inside the array. -/
def swapAt {α : Type} (a : List α) (i j : Nat) : List α :=
  match a[i]?, a[j]? with
  | some x, some y => (a.set i y).set j x
  | _, _ => a

/-- The loop `for (let i = a.length - 1; i > 0; i--)` of `shuffle`, entered
with the current value of `i`. -/
def shuffleLoop {α : Type} (draw : Draws) : Nat → List α → List α
  | 0, a => a
  | i + 1, a => shuffleLoop draw i (swapAt a (i + 1) (draw (i + 1) % (i + 2)))

/-- The two arrays that exist when `shuffle` returns: the caller's `arr` and
the copy `a` made by `arr.slice()`, which is the only one the loop writes to. -/
structure ShuffleArrays (α : Type) where
  arr : List α
  a : List α

/-- The body of `shuffle(arr)`, keeping both arrays. -/
def shuffleArrays {α : Type} (draw : Draws) (arr : List α) : ShuffleArrays α :=
  let a := arr
  { arr := arr, a := shuffleLoop draw (a.length - 1) a }

/-- The function `shuffle(arr)`: the returned array. -/
def shuffle {α : Type} (draw : Draws) (arr : List α) : List α :=
  (shuffleArrays draw arr).a

/-- White space and line terminators, the characters `String.prototype.trim`
removes. -/
def isTrimChar (c : Char) : Bool :=
  let n := c.toNat
  n = 9 || n = 10 || n = 11 || n = 12 || n = 13 || n = 32 || n = 160 || n = 5760 ||
  (8192 ≤ n && n ≤ 8202) || n = 8232 || n = 8233 || n = 8239 || n = 8287 ||
  n = 12288 || n = 65279

/-- The method `trim()`. -/
def trim (s : String) : String :=
  ⟨((s.data.dropWhile isTrimChar).reverse.dropWhile isTrimChar).reverse⟩

/-- The simple lowercase mappings of Unicode 14.0 as runs `(lo, hi, step, tgt)`:
the code points `lo, lo + step, ..` up to `hi` map to `tgt, tgt + step, ..`.  The
runs are sorted by `lo`.  U+03A3 and U+0130 are handled apart. -/
def lowerRuns : List (Nat × Nat × Nat × Nat) :=
  [
    (65, 90, 1, 97), (192, 214, 1, 224), (216, 222, 1, 248), (256, 302, 2, 257),
    (306, 310, 2, 307), (313, 327, 2, 314), (330, 374, 2, 331), (376, 376, 1, 255),
    (377, 381, 2, 378), (385, 385, 1, 595), (386, 388, 2, 387), (390, 390, 1, 596),
    (391, 391, 1, 392), (393, 394, 1, 598), (395, 395, 1, 396), (398, 398, 1, 477),
    (399, 399, 1, 601), (400, 400, 1, 603), (401, 401, 1, 402), (403, 403, 1, 608),
    (404, 404, 1, 611), (406, 406, 1, 617), (407, 407, 1, 616), (408, 408, 1, 409),
    (412, 412, 1, 623), (413, 413, 1, 626), (415, 415, 1, 629), (416, 420, 2, 417),
    (422, 422, 1, 640), (423, 423, 1, 424), (425, 425, 1, 643), (428, 428, 1, 429),
    (430, 430, 1, 648), (431, 431, 1, 432), (433, 434, 1, 650), (435, 437, 2, 436),
    (439, 439, 1, 658), (440, 440, 1, 441), (444, 444, 1, 445), (452, 452, 1, 454),
    (453, 453, 1, 454), (455, 455, 1, 457), (456, 456, 1, 457), (458, 458, 1, 460),
    (459, 475, 2, 460), (478, 494, 2, 479), (497, 497, 1, 499), (498, 500, 2, 499),
    (502, 502, 1, 405), (503, 503, 1, 447), (504, 542, 2, 505), (544, 544, 1, 414),
    (546, 562, 2, 547), (570, 570, 1, 11365), (571, 571, 1, 572), (573, 573, 1, 410),
    (574, 574, 1, 11366), (577, 577, 1, 578), (579, 579, 1, 384), (580, 580, 1, 649),
    (581, 581, 1, 652), (582, 590, 2, 583), (880, 882, 2, 881), (886, 886, 1, 887),
    (895, 895, 1, 1011), (902, 902, 1, 940), (904, 906, 1, 941), (908, 908, 1, 972),
    (910, 911, 1, 973), (913, 929, 1, 945), (932, 939, 1, 964), (975, 975, 1, 983),
    (984, 1006, 2, 985), (1012, 1012, 1, 952), (1015, 1015, 1, 1016), (1017, 1017, 1, 1010),
    (1018, 1018, 1, 1019), (1021, 1023, 1, 891), (1024, 1039, 1, 1104), (1040, 1071, 1, 1072),
    (1120, 1152, 2, 1121), (1162, 1214, 2, 1163), (1216, 1216, 1, 1231), (1217, 1229, 2, 1218),
    (1232, 1326, 2, 1233), (1329, 1366, 1, 1377), (4256, 4293, 1, 11520), (4295, 4295, 1, 11559),
    (4301, 4301, 1, 11565), (5024, 5103, 1, 43888), (5104, 5109, 1, 5112), (7312, 7354, 1, 4304),
    (7357, 7359, 1, 4349), (7680, 7828, 2, 7681), (7838, 7838, 1, 223), (7840, 7934, 2, 7841),
    (7944, 7951, 1, 7936), (7960, 7965, 1, 7952), (7976, 7983, 1, 7968), (7992, 7999, 1, 7984),
    (8008, 8013, 1, 8000), (8025, 8031, 2, 8017), (8040, 8047, 1, 8032), (8072, 8079, 1, 8064),
    (8088, 8095, 1, 8080), (8104, 8111, 1, 8096), (8120, 8121, 1, 8112), (8122, 8123, 1, 8048),
    (8124, 8124, 1, 8115), (8136, 8139, 1, 8050), (8140, 8140, 1, 8131), (8152, 8153, 1, 8144),
    (8154, 8155, 1, 8054), (8168, 8169, 1, 8160), (8170, 8171, 1, 8058), (8172, 8172, 1, 8165),
    (8184, 8185, 1, 8056), (8186, 8187, 1, 8060), (8188, 8188, 1, 8179), (8486, 8486, 1, 969),
    (8490, 8490, 1, 107), (8491, 8491, 1, 229), (8498, 8498, 1, 8526), (8544, 8559, 1, 8560),
    (8579, 8579, 1, 8580), (9398, 9423, 1, 9424), (11264, 11311, 1, 11312), (11360, 11360, 1, 11361),
    (11362, 11362, 1, 619), (11363, 11363, 1, 7549), (11364, 11364, 1, 637), (11367, 11371, 2, 11368),
    (11373, 11373, 1, 593), (11374, 11374, 1, 625), (11375, 11375, 1, 592), (11376, 11376, 1, 594),
    (11378, 11378, 1, 11379), (11381, 11381, 1, 11382), (11390, 11391, 1, 575), (11392, 11490, 2, 11393),
    (11499, 11501, 2, 11500), (11506, 11506, 1, 11507), (42560, 42604, 2, 42561), (42624, 42650, 2, 42625),
    (42786, 42798, 2, 42787), (42802, 42862, 2, 42803), (42873, 42875, 2, 42874), (42877, 42877, 1, 7545),
    (42878, 42886, 2, 42879), (42891, 42891, 1, 42892), (42893, 42893, 1, 613), (42896, 42898, 2, 42897),
    (42902, 42920, 2, 42903), (42922, 42922, 1, 614), (42923, 42923, 1, 604), (42924, 42924, 1, 609),
    (42925, 42925, 1, 620), (42926, 42926, 1, 618), (42928, 42928, 1, 670), (42929, 42929, 1, 647),
    (42930, 42930, 1, 669), (42931, 42931, 1, 43859), (42932, 42946, 2, 42933), (42948, 42948, 1, 42900),
    (42949, 42949, 1, 642), (42950, 42950, 1, 7566), (42951, 42953, 2, 42952), (42960, 42960, 1, 42961),
    (42966, 42968, 2, 42967), (42997, 42997, 1, 42998), (65313, 65338, 1, 65345), (66560, 66599, 1, 66600),
    (66736, 66771, 1, 66776), (66928, 66938, 1, 66967), (66940, 66954, 1, 66979), (66956, 66962, 1, 66995),
    (66964, 66965, 1, 67003), (68736, 68786, 1, 68800), (71840, 71871, 1, 71872), (93760, 93791, 1, 93792),
    (125184, 125217, 1, 125218) ]

/-- The code points that are Cased and not Case_Ignorable (Unicode 14.0), as
ranges `(lo, hi)`. -/
def casedRanges : List (Nat × Nat) :=
  [
    (65, 90), (97, 122), (170, 170), (181, 181), (186, 186), (192, 214),
    (216, 246), (248, 442), (444, 447), (452, 659), (661, 687), (880, 883),
    (886, 887), (891, 893), (895, 895), (902, 902), (904, 906), (908, 908),
    (910, 929), (931, 1013), (1015, 1153), (1162, 1327), (1329, 1366), (1376, 1416),
    (4256, 4293), (4295, 4295), (4301, 4301), (4304, 4346), (4349, 4351), (5024, 5109),
    (5112, 5117), (7296, 7304), (7312, 7354), (7357, 7359), (7424, 7467), (7531, 7543),
    (7545, 7578), (7680, 7957), (7960, 7965), (7968, 8005), (8008, 8013), (8016, 8023),
    (8025, 8025), (8027, 8027), (8029, 8029), (8031, 8061), (8064, 8116), (8118, 8124),
    (8126, 8126), (8130, 8132), (8134, 8140), (8144, 8147), (8150, 8155), (8160, 8172),
    (8178, 8180), (8182, 8188), (8450, 8450), (8455, 8455), (8458, 8467), (8469, 8469),
    (8473, 8477), (8484, 8484), (8486, 8486), (8488, 8488), (8490, 8493), (8495, 8500),
    (8505, 8505), (8508, 8511), (8517, 8521), (8526, 8526), (8544, 8575), (8579, 8580),
    (9398, 9449), (11264, 11387), (11390, 11492), (11499, 11502), (11506, 11507), (11520, 11557),
    (11559, 11559), (11565, 11565), (42560, 42605), (42624, 42651), (42786, 42863), (42865, 42887),
    (42891, 42894), (42896, 42954), (42960, 42961), (42963, 42963), (42965, 42969), (42997, 42998),
    (43002, 43002), (43824, 43866), (43872, 43880), (43888, 43967), (64256, 64262), (64275, 64279),
    (65313, 65338), (65345, 65370), (66560, 66639), (66736, 66771), (66776, 66811), (66928, 66938),
    (66940, 66954), (66956, 66962), (66964, 66965), (66967, 66977), (66979, 66993), (66995, 67001),
    (67003, 67004), (68736, 68786), (68800, 68850), (71840, 71903), (93760, 93823), (119808, 119892),
    (119894, 119964), (119966, 119967), (119970, 119970), (119973, 119974), (119977, 119980), (119982, 119993),
    (119995, 119995), (119997, 120003), (120005, 120069), (120071, 120074), (120077, 120084), (120086, 120092),
    (120094, 120121), (120123, 120126), (120128, 120132), (120134, 120134), (120138, 120144), (120146, 120485),
    (120488, 120512), (120514, 120538), (120540, 120570), (120572, 120596), (120598, 120628), (120630, 120654),
    (120656, 120686), (120688, 120712), (120714, 120744), (120746, 120770), (120772, 120779), (122624, 122633),
    (122635, 122654), (125184, 125251), (127280, 127305), (127312, 127337), (127344, 127369) ]

/-- The code points that are Case_Ignorable (Unicode 14.0), as ranges
`(lo, hi)`. -/
def ignorableRanges : List (Nat × Nat) :=
  [
    (39, 39), (46, 46), (58, 58), (94, 94), (96, 96), (168, 168),
    (173, 173), (175, 175), (180, 180), (183, 184), (688, 879), (884, 885),
    (890, 890), (900, 901), (903, 903), (1155, 1161), (1369, 1369), (1375, 1375),
    (1425, 1469), (1471, 1471), (1473, 1474), (1476, 1477), (1479, 1479), (1524, 1524),
    (1536, 1541), (1552, 1562), (1564, 1564), (1600, 1600), (1611, 1631), (1648, 1648),
    (1750, 1757), (1759, 1768), (1770, 1773), (1807, 1807), (1809, 1809), (1840, 1866),
    (1958, 1968), (2027, 2037), (2042, 2042), (2045, 2045), (2070, 2093), (2137, 2139),
    (2184, 2184), (2192, 2193), (2200, 2207), (2249, 2306), (2362, 2362), (2364, 2364),
    (2369, 2376), (2381, 2381), (2385, 2391), (2402, 2403), (2417, 2417), (2433, 2433),
    (2492, 2492), (2497, 2500), (2509, 2509), (2530, 2531), (2558, 2558), (2561, 2562),
    (2620, 2620), (2625, 2626), (2631, 2632), (2635, 2637), (2641, 2641), (2672, 2673),
    (2677, 2677), (2689, 2690), (2748, 2748), (2753, 2757), (2759, 2760), (2765, 2765),
    (2786, 2787), (2810, 2815), (2817, 2817), (2876, 2876), (2879, 2879), (2881, 2884),
    (2893, 2893), (2901, 2902), (2914, 2915), (2946, 2946), (3008, 3008), (3021, 3021),
    (3072, 3072), (3076, 3076), (3132, 3132), (3134, 3136), (3142, 3144), (3146, 3149),
    (3157, 3158), (3170, 3171), (3201, 3201), (3260, 3260), (3263, 3263), (3270, 3270),
    (3276, 3277), (3298, 3299), (3328, 3329), (3387, 3388), (3393, 3396), (3405, 3405),
    (3426, 3427), (3457, 3457), (3530, 3530), (3538, 3540), (3542, 3542), (3633, 3633),
    (3636, 3642), (3654, 3662), (3761, 3761), (3764, 3772), (3782, 3782), (3784, 3789),
    (3864, 3865), (3893, 3893), (3895, 3895), (3897, 3897), (3953, 3966), (3968, 3972),
    (3974, 3975), (3981, 3991), (3993, 4028), (4038, 4038), (4141, 4144), (4146, 4151),
    (4153, 4154), (4157, 4158), (4184, 4185), (4190, 4192), (4209, 4212), (4226, 4226),
    (4229, 4230), (4237, 4237), (4253, 4253), (4348, 4348), (4957, 4959), (5906, 5908),
    (5938, 5939), (5970, 5971), (6002, 6003), (6068, 6069), (6071, 6077), (6086, 6086),
    (6089, 6099), (6103, 6103), (6109, 6109), (6155, 6159), (6211, 6211), (6277, 6278),
    (6313, 6313), (6432, 6434), (6439, 6440), (6450, 6450), (6457, 6459), (6679, 6680),
    (6683, 6683), (6742, 6742), (6744, 6750), (6752, 6752), (6754, 6754), (6757, 6764),
    (6771, 6780), (6783, 6783), (6823, 6823), (6832, 6862), (6912, 6915), (6964, 6964),
    (6966, 6970), (6972, 6972), (6978, 6978), (7019, 7027), (7040, 7041), (7074, 7077),
    (7080, 7081), (7083, 7085), (7142, 7142), (7144, 7145), (7149, 7149), (7151, 7153),
    (7212, 7219), (7222, 7223), (7288, 7293), (7376, 7378), (7380, 7392), (7394, 7400),
    (7405, 7405), (7412, 7412), (7416, 7417), (7468, 7530), (7544, 7544), (7579, 7679),
    (8125, 8125), (8127, 8129), (8141, 8143), (8157, 8159), (8173, 8175), (8189, 8190),
    (8203, 8207), (8216, 8217), (8228, 8228), (8231, 8231), (8234, 8238), (8288, 8292),
    (8294, 8303), (8305, 8305), (8319, 8319), (8336, 8348), (8400, 8432), (11388, 11389),
    (11503, 11505), (11631, 11631), (11647, 11647), (11744, 11775), (11823, 11823), (12293, 12293),
    (12330, 12333), (12337, 12341), (12347, 12347), (12441, 12446), (12540, 12542), (40981, 40981),
    (42232, 42237), (42508, 42508), (42607, 42610), (42612, 42621), (42623, 42623), (42652, 42655),
    (42736, 42737), (42752, 42785), (42864, 42864), (42888, 42890), (42994, 42996), (43000, 43001),
    (43010, 43010), (43014, 43014), (43019, 43019), (43045, 43046), (43052, 43052), (43204, 43205),
    (43232, 43249), (43263, 43263), (43302, 43309), (43335, 43345), (43392, 43394), (43443, 43443),
    (43446, 43449), (43452, 43453), (43471, 43471), (43493, 43494), (43561, 43566), (43569, 43570),
    (43573, 43574), (43587, 43587), (43596, 43596), (43632, 43632), (43644, 43644), (43696, 43696),
    (43698, 43700), (43703, 43704), (43710, 43711), (43713, 43713), (43741, 43741), (43756, 43757),
    (43763, 43764), (43766, 43766), (43867, 43871), (43881, 43883), (44005, 44005), (44008, 44008),
    (44013, 44013), (64286, 64286), (64434, 64450), (65024, 65039), (65043, 65043), (65056, 65071),
    (65106, 65106), (65109, 65109), (65279, 65279), (65287, 65287), (65294, 65294), (65306, 65306),
    (65342, 65342), (65344, 65344), (65392, 65392), (65438, 65439), (65507, 65507), (65529, 65531),
    (66045, 66045), (66272, 66272), (66422, 66426), (67456, 67461), (67463, 67504), (67506, 67514),
    (68097, 68099), (68101, 68102), (68108, 68111), (68152, 68154), (68159, 68159), (68325, 68326),
    (68900, 68903), (69291, 69292), (69446, 69456), (69506, 69509), (69633, 69633), (69688, 69702),
    (69744, 69744), (69747, 69748), (69759, 69761), (69811, 69814), (69817, 69818), (69821, 69821),
    (69826, 69826), (69837, 69837), (69888, 69890), (69927, 69931), (69933, 69940), (70003, 70003),
    (70016, 70017), (70070, 70078), (70089, 70092), (70095, 70095), (70191, 70193), (70196, 70196),
    (70198, 70199), (70206, 70206), (70367, 70367), (70371, 70378), (70400, 70401), (70459, 70460),
    (70464, 70464), (70502, 70508), (70512, 70516), (70712, 70719), (70722, 70724), (70726, 70726),
    (70750, 70750), (70835, 70840), (70842, 70842), (70847, 70848), (70850, 70851), (71090, 71093),
    (71100, 71101), (71103, 71104), (71132, 71133), (71219, 71226), (71229, 71229), (71231, 71232),
    (71339, 71339), (71341, 71341), (71344, 71349), (71351, 71351), (71453, 71455), (71458, 71461),
    (71463, 71467), (71727, 71735), (71737, 71738), (71995, 71996), (71998, 71998), (72003, 72003),
    (72148, 72151), (72154, 72155), (72160, 72160), (72193, 72202), (72243, 72248), (72251, 72254),
    (72263, 72263), (72273, 72278), (72281, 72283), (72330, 72342), (72344, 72345), (72752, 72758),
    (72760, 72765), (72767, 72767), (72850, 72871), (72874, 72880), (72882, 72883), (72885, 72886),
    (73009, 73014), (73018, 73018), (73020, 73021), (73023, 73029), (73031, 73031), (73104, 73105),
    (73109, 73109), (73111, 73111), (73459, 73460), (78896, 78904), (92912, 92916), (92976, 92982),
    (92992, 92995), (94031, 94031), (94095, 94111), (94176, 94177), (94179, 94180), (110576, 110579),
    (110581, 110587), (110589, 110590), (113821, 113822), (113824, 113827), (118528, 118573), (118576, 118598),
    (119143, 119145), (119155, 119170), (119173, 119179), (119210, 119213), (119362, 119364), (121344, 121398),
    (121403, 121452), (121461, 121461), (121476, 121476), (121499, 121503), (121505, 121519), (122880, 122886),
    (122888, 122904), (122907, 122913), (122915, 122916), (122918, 122922), (123184, 123197), (123566, 123566),
    (123628, 123631), (125136, 125142), (125252, 125259), (127995, 127999), (917505, 917505), (917536, 917631),
    (917760, 917999) ]

/-- Looking a code point up in sorted runs. -/
def findRun (n : Nat) : List (Nat × Nat × Nat × Nat) → Option Nat
  | [] => none
  | (lo, hi, step, tgt) :: rest =>
    if n < lo then none
    else if n ≤ hi && (n - lo) % step == 0 then some (tgt + (n - lo))
    else findRun n rest

/-- Membership of a code point in one of the ranges. -/
def inRanges (n : Nat) (ranges : List (Nat × Nat)) : Bool :=
  ranges.any fun r => r.1 ≤ n && n ≤ r.2

/-- The simple lowercase mapping of a code point; code points without one
map to themselves. -/
def lowerCode (n : Nat) : Nat :=
  (findRun n lowerRuns).getD n

/-- Whether the first character that is not case-ignorable is a cased letter;
applied to the text after a character, and to the text before it read
backwards. -/
def followedByCased : List Char → Bool
  | [] => false
  | c :: rest =>
    if inRanges c.toNat ignorableRanges then followedByCased rest
    else inRanges c.toNat casedRanges

/-- The lowercase of the character `c` standing between `before` (read
backwards) and `after`: capital sigma becomes final sigma after a cased letter
when no cased letter follows, and small sigma otherwise; U+0130 becomes `i`
with a combining dot above; every other character takes its simple mapping. -/
def lowerAt (before : List Char) (c : Char) (after : List Char) : List Char :=
  if c.toNat = 931 then
    [if followedByCased before && !followedByCased after then Char.ofNat 962
     else Char.ofNat 963]
  else if c.toNat = 304 then [Char.ofNat 105, Char.ofNat 775]
  else [Char.ofNat (lowerCode c.toNat)]

/-- Lowercasing the characters `rest`, which stand after `before` (read
backwards). -/
def lowerFrom : List Char → List Char → List Char
  | _, [] => []
  | before, c :: after => lowerAt before c after ++ lowerFrom (c :: before) after

/-- The method `toLowerCase()`: the locale-independent Unicode lowercase
conversion, over the code points of the string, with the character data of
Unicode 14.0.  A string here is a sequence of code points; an unpaired
surrogate, which the method leaves as it is, has no counterpart. -/
def toLowerCase (s : String) : String :=
  ⟨lowerFrom [] s.data⟩

/-- The function `normalize(s)`: `(s || "").trim().toLowerCase()`.  Both call
sites pass a string, for which `s || ""` is `s`. -/
def normalize (s : String) : String :=
  toLowerCase (trim (if s = "" then "" else s))

/-! ## State -/

/-- The four values the script gives to `phase`. -/
inductive Phase where
  | setup
  | study
  | round
  | summary
  deriving DecidableEq, Repr

/-- The two callbacks the script hands to `setInterval`: the function
`nextStudyPair` (from `startStudy`) and the closure of
`startStudyAgainThenRound`, which captures `nextRoundNum`. -/
inductive Callback where
  | nextStudyPair
  | studyAgain (nextRoundNum : Nat)
  deriving DecidableEq, Repr

/-- One item of the round list: the cue text and the input element with its
`dataset.pairIndex`, `dataset.target` and `value`. -/
structure RoundInput where
  cue : String
  pairIndex : Nat
  target : String
  value : String
  deriving DecidableEq, Repr

/-- The script's global variables, and the part of the page and of the timer
table that the script reads back.  `null` and `undefined` are `none`.  Styling
(section classes, phase label, progress bar, border colours, focus) is left out. -/
structure State where
  weekNumber : Option JSNum
  wordsetIndex : Option Nat
  pairs : List (String × String)
  phase : Phase
  currentRound : Nat
  studyIdx : Nat
  studyTimer : Option Nat
  answersByRound : List (Nat × List (Option String))
  scoresByRound : List (Nat × Nat)
  /-- The repeating timers that are active, with their handles. -/
  timers : List (Nat × Callback)
  /-- The handle the next `setInterval` returns; handles are positive. -/
  nextTimerId : Nat
  /-- The text of the week input. -/
  weekInputValue : String
  /-- The pair shown by the study display. -/
  shownPair : Option (String × String)
  /-- The items of `roundListEl`, in presentation order. -/
  roundInputs : List RoundInput
  scoreR1 : String
  scoreR2 : String
  scoreR3 : String
  deriving DecidableEq

/-- The state when the page has loaded. -/
def initialState : State :=
  { weekNumber := none
    wordsetIndex := some 0
    pairs := []
    phase := .setup
    currentRound := 0
    studyIdx := 0
    studyTimer := none
    answersByRound := [(1, []), (2, []), (3, [])]
    scoresByRound := [(1, 0), (2, 0), (3, 0)]
    timers := []
    nextTimerId := 1
    weekInputValue := ""
    shownPair := none
    roundInputs := []
    scoreR1 := ""
    scoreR2 := ""
    scoreR3 := "" }

/-- The assignment `obj[k] = v` on an object with numeric keys. -/
def objSet {β : Type} (m : List (Nat × β)) (k : Nat) (v : β) : List (Nat × β) :=
  if m.any (fun e => e.1 == k) then m.map (fun e => if e.1 = k then (k, v) else e)
  else m ++ [(k, v)]

/-- The assignment `arr[i] = v` on an array: past the end it leaves holes. -/
def arrSet (xs : List (Option String)) (i : Nat) (v : String) : List (Option String) :=
  if i < xs.length then xs.set i (some v)
  else xs ++ List.replicate (i - xs.length) none ++ [some v]

/-- The call `setInterval(cb, STUDY_MS)`: the new state and the handle. -/
def setInterval (cb : Callback) (s : State) : State × Nat :=
  ({ s with timers := s.timers ++ [(s.nextTimerId, cb)], nextTimerId := s.nextTimerId + 1 },
    s.nextTimerId)

/-- The call `clearInterval(h)`; a handle that names no active timer, and
`null`, do nothing. -/
def clearInterval (h : Option Nat) (s : State) : State :=
  match h with
  | some id => { s with timers := s.timers.filter (fun t => t.1 != id) }
  | none => s

/-- The test `if (studyTimer)`: `null` and `0` are falsy. -/
def truthy (h : Option Nat) : Bool :=
  match h with
  | some id => id != 0
  | none => false

/-- The function `setPhase(name)`. -/
def setPhase (name : Phase) (s : State) : State :=
  { s with phase := name }

/-! ## Study phase

A function that can throw returns `Except State State`: `.error s` is a
`TypeError` thrown when the state was `s`. -/

/-- The function `renderStudyPair()`: destructuring `pairs[studyIdx]` throws
when there is no such pair. -/
def renderStudyPair (s : State) : Except State State :=
  match s.pairs[s.studyIdx]? with
  | some p => .ok { s with shownPair := some p }
  | none => .error s

/-- The function `startStudy()`. -/
def startStudy (s : State) : Except State State :=
  let s := setPhase .study s
  let s := { s with studyIdx := 0 }
  match renderStudyPair s with
  | .error s => .error s
  | .ok s =>
    let (s, id) := setInterval .nextStudyPair s
    .ok { s with studyTimer := some id }

/-! ## Rounds -/

/-- The outcomes of `Math.random()` inside one call of `startRound`: the draws
of its `shuffle`, and for the item at each position of the presentation order
whether `Math.random() < 0.5`. -/
structure Rand where
  draw : Draws
  side : Nat → Bool

/-- The member `p[side]` of a pair, for `side` 0 or 1. -/
def pairAt (p : String × String) (side : Nat) : String :=
  if side = 0 then p.1 else p.2

/-- The function `startRound(n)`.  Every index of `order` is an index of
`pairs`, so `pairs[idx]` is always a pair. -/
def startRound (rnd : Rand) (n : Nat) (s : State) : State :=
  let s := { s with currentRound := n }
  let s := setPhase .round s
  let order := shuffle rnd.draw (List.range s.pairs.length)
  let blank : List (Option String) := List.replicate s.pairs.length (some "")
  let s := { s with answersByRound := objSet s.answersByRound n blank }
  let items := order.enum.map fun (k, idx) =>
    let cueSide := if rnd.side k then 0 else 1
    let p := s.pairs.getD idx ("", "")
    { cue := pairAt p cueSide, pairIndex := idx, target := pairAt p (1 - cueSide), value := "" }
  { s with roundInputs := items }

/-- The function `nextStudyPair()`. -/
def nextStudyPair (rnd : Rand) (s : State) : Except State State :=
  let s := { s with studyIdx := s.studyIdx + 1 }
  if s.studyIdx ≥ s.pairs.length then
    let s := clearInterval s.studyTimer s
    .ok (startRound rnd 1 s)
  else renderStudyPair s

/-- The body of `forEach` in `scoreRound`, over the remaining inputs, with the
running count `correct`. -/
def scoreLoop : List RoundInput → State → Nat → Except State (State × Nat)
  | [], s, correct => .ok (s, correct)
  | inp :: rest, s, correct =>
    let idx := inp.pairIndex
    let target := normalize inp.target
    let val := normalize inp.value
    match s.answersByRound.lookup s.currentRound with
    | none => .error s
    | some row =>
      let s := { s with answersByRound := objSet s.answersByRound s.currentRound (arrSet row idx val) }
      scoreLoop rest s (if val = target then correct + 1 else correct)

/-- The function `scoreRound()`. -/
def scoreRound (s : State) : Except State State :=
  match scoreLoop s.roundInputs s 0 with
  | .error s => .error s
  | .ok (s, correct) =>
    .ok { s with scoresByRound := objSet s.scoresByRound s.currentRound correct }

/-- The callback of the timer of `startStudyAgainThenRound(nextRoundNum)`. -/
def studyAgainTick (rnd : Rand) (nextRoundNum : Nat) (s : State) : Except State State :=
  let s := { s with studyIdx := s.studyIdx + 1 }
  if s.studyIdx ≥ s.pairs.length then
    let s := clearInterval s.studyTimer s
    .ok (startRound rnd nextRoundNum s)
  else renderStudyPair s

/-- The function `startStudyAgainThenRound(nextRoundNum)`. -/
def startStudyAgainThenRound (nextRoundNum : Nat) (s : State) : Except State State :=
  let s := setPhase .study s
  let s := { s with studyIdx := 0 }
  match renderStudyPair s with
  | .error s => .error s
  | .ok s =>
    let s := if truthy s.studyTimer then clearInterval s.studyTimer s else s
    let (s, id) := setInterval (.studyAgain nextRoundNum) s
    .ok { s with studyTimer := some id }

/-- The text of the template `scoresByRound[k]` followed by `/12`. -/
def scoreText (s : State) (k : Nat) : String :=
  (match s.scoresByRound.lookup k with
    | some v => toString v
    | none => "undefined") ++ "/12"

/-- The function `showSummary()`. -/
def showSummary (s : State) : State :=
  let s := setPhase .summary s
  { s with scoreR1 := scoreText s 1, scoreR2 := scoreText s 2, scoreR3 := scoreText s 3 }

/-- The function `continueFlowAfterRound()`. -/
def continueFlowAfterRound (s : State) : Except State State :=
  if s.currentRound < 3 then startStudyAgainThenRound (s.currentRound + 1) s
  else .ok (showSummary s)

/-! ## Event listeners -/

/-- The element `WORDSETS[wordsetIndex]`; `undefined` for an index that is
`undefined`. -/
def wordsetAt (i : Option Nat) : Option (List (String × String)) :=
  match i with
  | some k => WORDSETS[k]?
  | none => none

/-- The click listener of the start button; `val` is `Number(weekInput.value)`.
A rejected value raises the alert and leaves the state as it was; calling
`slice` on an `undefined` wordset throws. -/
def startClick (draw : Draws) (val : JSNum) (s : State) : Except State State :=
  if val.falsy || val.lt 1 then .ok s
  else
    let s := { s with weekNumber := some val }
    let s := { s with wordsetIndex := selectWordset val }
    match wordsetAt s.wordsetIndex with
    | none => .error s
    | some ws =>
      let s := { s with pairs := ws }
      let s := { s with pairs := shuffle draw s.pairs }
      startStudy s

/-- The click listener of the skip-study button: it calls `nextStudyPair()`. -/
def skipClick (rnd : Rand) (s : State) : Except State State :=
  nextStudyPair rnd s

/-- The click listener of the submit button. -/
def submitClick (s : State) : Except State State :=
  match scoreRound s with
  | .error s => .error s
  | .ok s => continueFlowAfterRound s

/-- The click listener of the restart button. -/
def restartClick (s : State) : State :=
  let s := { s with weekNumber := none, wordsetIndex := some 0, pairs := [], phase := .setup,
                    currentRound := 0, studyIdx := 0 }
  let s := if truthy s.studyTimer then clearInterval s.studyTimer s else s
  let s := { s with answersByRound := [(1, []), (2, []), (3, [])],
                    scoresByRound := [(1, 0), (2, 0), (3, 0)],
                    weekInputValue := "" }
  setPhase .setup s

/-! ## The page as a transition system -/

/-- The state a listener or callback leaves behind: an uncaught `TypeError`
ends the listener and keeps what it had written so far. -/
def settle (r : Except State State) : State :=
  match r with
  | .ok s => s
  | .error s => s

/-- The user typing `typed` into the inputs of the round list, in presentation
order. -/
def typeAnswers : List RoundInput → List String → List RoundInput
  | inp :: rest, v :: vs => { inp with value := v } :: typeAnswers rest vs
  | inps, _ => inps

/-- What can happen to the page.  `start` carries the text typed into the week
input and its `Number(...)` conversion; `tick` names the timer that fires. -/
inductive Action where
  | start (text : String) (val : JSNum) (draw : Draws)
  | tick (id : Nat) (rnd : Rand)
  | skip (rnd : Rand)
  | submit (typed : List String)
  | restart

/-- Running a timer callback. -/
def runCallback (cb : Callback) (rnd : Rand) (s : State) : Except State State :=
  match cb with
  | .nextStudyPair => nextStudyPair rnd s
  | .studyAgain n => studyAgainTick rnd n s

/-- A timer that fires runs its callback. -/
def fire (id : Nat) (rnd : Rand) (s : State) : State :=
  match s.timers.lookup id with
  | some cb => settle (runCallback cb rnd s)
  | none => s

/-- The effect of an action. -/
def step (a : Action) (s : State) : State :=
  match a with
  | .start text val draw => settle (startClick draw val { s with weekInputValue := text })
  | .tick id rnd => fire id rnd s
  | .skip rnd => settle (skipClick rnd s)
  | .submit typed => settle (submitClick { s with roundInputs := typeAnswers s.roundInputs typed })
  | .restart => restartClick s

/-- Modelled from the spec: the page markup and stylesheet are not part of the
script.  `setPhase` marks one section active, and each control is exposed only
with its section: the start action in setup, skip-study in study, submit in a
round.  A timer fires only while it is active.  Restart is allowed from every
state. -/
def enabled (a : Action) (s : State) : Bool :=
  match a with
  | .start _ _ _ => s.phase == .setup
  | .tick id _ => s.timers.any (fun t => t.1 == id)
  | .skip _ => s.phase == .study
  | .submit _ => s.phase == .round
  | .restart => true

/-- The states the page can be in. -/
inductive Reachable : State → Prop where
  | init : Reachable initialState
  | step (a : Action) (s : State) : Reachable s → enabled a s = true → Reachable (step a s)

/-- Firing timer `id` `k` times in a row. -/
def ticks (id : Nat) (rnd : Rand) : Nat → State → State
  | 0, s => s
  | k + 1, s => ticks id rnd k (step (.tick id rnd) s)

/-- Clicking skip-study `k` times in a row. -/
def skips (rnd : Rand) : Nat → State → State
  | 0, s => s
  | k + 1, s => skips rnd k (step (.skip rnd) s)

/-- The letters `A`..`Z` moved to `a`..`z`, every other character kept: two
strings that agree after it differ only in the case of ASCII letters. -/
def asciiLower (c : Char) : Char :=
  if 65 ≤ c.toNat ∧ c.toNat ≤ 90 then Char.ofNat (c.toNat + 32) else c

/-- The number of inputs whose normalized value is the normalized target. -/
def countMatches (inputs : List RoundInput) : Nat :=
  inputs.countP (fun inp => decide (normalize inp.value = normalize inp.target))

/-- The round a timer callback starts when the study cursor reaches the end. -/
def roundOf (cb : Callback) : Nat :=
  match cb with
  | .nextStudyPair => 1
  | .studyAgain n => n

/-- The timer invariant: no timer is active, or exactly one is, its handle is
the positive value of `studyTimer`, and the phase is study; and the next handle
is positive. -/
def TimerInv (s : State) : Prop :=
  (s.timers = [] ∨
    ∃ id cb, s.timers = [(id, cb)] ∧ s.studyTimer = some id ∧ id ≠ 0 ∧ s.phase = .study) ∧
  1 ≤ s.nextTimerId

/-- The score invariant: at most twelve pairs, at most twelve round inputs, and
each of the three stored scores is at most 12. -/
def ScoreInv (s : State) : Prop :=
  s.pairs.length ≤ 12 ∧ s.roundInputs.length ≤ 12 ∧
  ∀ k, k = 1 ∨ k = 2 ∨ k = 3 → ∃ v, s.scoresByRound.lookup k = some v ∧ v ≤ 12

/-- A study phase before round `n` at its first pair: twelve pairs that are a
permutation of `ws`, the only active timer is `id`, held by `studyTimer`, and
its callback starts round `n`; `scores` are the stored scores. -/
def InStudy (s : State) (n : Nat) (ws : List (String × String)) (scores : List (Nat × Nat))
    (id : Nat) : Prop :=
  s.phase = .study ∧ s.studyIdx = 0 ∧ s.pairs.length = 12 ∧ List.Perm s.pairs ws ∧
  (∃ cb, s.timers = [(id, cb)] ∧ roundOf cb = n) ∧ s.studyTimer = some id ∧
  s.scoresByRound = scores ∧ s.nextTimerId = id + 1

/-- Round `n` as `startRound` leaves it: no timer active, twelve empty inputs
whose targets are words of the pairs, and the answers array of round `n` in
place. -/
def InRound (s : State) (n : Nat) (ws : List (String × String)) (scores : List (Nat × Nat))
    (nid : Nat) : Prop :=
  s.phase = .round ∧ s.currentRound = n ∧ (s.answersByRound.lookup n).isSome = true ∧
  s.pairs.length = 12 ∧ List.Perm s.pairs ws ∧ s.timers = [] ∧
  s.scoresByRound = scores ∧ s.nextTimerId = nid ∧ s.roundInputs.length = 12 ∧
  ∀ inp ∈ s.roundInputs, inp.value = "" ∧ ∃ p ∈ s.pairs, inp.target = p.1 ∨ inp.target = p.2

/-! ## The wordset selector -/

theorem ofRat_three : JSNum.ofRat 3 = .fin 3 := by
  norm_num [JSNum.ofRat, floorLog2, ilog2, roundHalfEven]

theorem ofRat_four : JSNum.ofRat 4 = .fin 4 := by
  norm_num [JSNum.ofRat, floorLog2, ilog2, roundHalfEven]

theorem ofRat_five : JSNum.ofRat 5 = .fin 5 := by
  norm_num [JSNum.ofRat, floorLog2, ilog2, roundHalfEven]

/-- On a natural number the remainder by 3 is the usual one. -/
theorem rem_three_natCast (n : ℕ) :
    (JSNum.fin (n : ℚ)).rem 3 = .fin ((n % 3 : ℕ) : ℚ) := by
  have h0 : (0 : ℚ) ≤ (n : ℚ) / 3 := by positivity
  have hf : ⌊(n : ℚ) / 3⌋ = ((n / 3 : ℕ) : ℤ) := by
    have := Rat.floor_natCast_div_natCast n 3
    simpa using this
  simp only [JSNum.rem, truncate, if_pos h0, hf]
  congr 1
  have h := Nat.div_add_mod n 3
  have h2 : (n : ℚ) = 3 * ((n / 3 : ℕ) : ℚ) + ((n % 3 : ℕ) : ℚ) := by exact_mod_cast h.symm
  simp only [Int.cast_natCast]
  linarith

/-- The selector on a natural week number, in closed form. -/
theorem selectWordset_natCast (n : ℕ) :
    selectWordset (.fin (n : ℚ)) = some ((n + 2) % 3) := by
  unfold selectWordset
  rw [rem_three_natCast]
  have h3 : n % 3 < 3 := Nat.mod_lt _ (by decide)
  have hcases : n % 3 = 0 ∨ n % 3 = 1 ∨ n % 3 = 2 := by omega
  rcases hcases with h | h | h
  · have e : (n + 2) % 3 = 2 := by omega
    rw [h, e]
    have h4 : ((0 : ℕ) : ℚ) + 3 = 3 := by norm_num
    simp only [JSNum.add, h4, ofRat_three]
    have h5 := rem_three_natCast 3
    norm_num at h5
    simp [h5, wordsetMap]
  · have e : (n + 2) % 3 = 0 := by omega
    rw [h, e]
    have h4 : ((1 : ℕ) : ℚ) + 3 = 4 := by norm_num
    simp only [JSNum.add, h4, ofRat_four]
    have h5 := rem_three_natCast 4
    norm_num at h5
    simp [h5, wordsetMap]
  · have e : (n + 2) % 3 = 1 := by omega
    rw [h, e]
    have h4 : ((2 : ℕ) : ℚ) + 3 = 5 := by norm_num
    simp only [JSNum.add, h4, ofRat_five]
    have h5 := rem_three_natCast 5
    norm_num at h5
    simp [h5, wordsetMap]

/-- C1: for every integer week `≥ 1`, `selectWordset(week)` is `(week - 1) mod 3`,
a valid index into the three `WORDSETS`; it has period 3; and it takes the
values 0, 1, 2, 0 at the weeks 1, 2, 3, 4. -/
theorem selectWordset_spec (week : ℕ) (hweek : 1 ≤ week) :
    selectWordset (.fin (week : ℚ)) = some ((week - 1) % 3) ∧
    (week - 1) % 3 < WORDSETS.length ∧
    selectWordset (.fin ((week + 3 : ℕ) : ℚ)) = selectWordset (.fin (week : ℚ)) ∧
    selectWordset (.fin ((1 : ℕ) : ℚ)) = some 0 ∧
    selectWordset (.fin ((2 : ℕ) : ℚ)) = some 1 ∧
    selectWordset (.fin ((3 : ℕ) : ℚ)) = some 2 ∧
    selectWordset (.fin ((4 : ℕ) : ℚ)) = some 0 := by
  have e : (week + 2) % 3 = (week - 1) % 3 := by omega
  refine ⟨?_, ?_, ?_, ?_, ?_, ?_, ?_⟩
  · rw [selectWordset_natCast, e]
  · have : WORDSETS.length = 3 := rfl
    omega
  · rw [selectWordset_natCast, selectWordset_natCast]
    congr 1
    omega
  · rw [selectWordset_natCast]
  · rw [selectWordset_natCast]
  · rw [selectWordset_natCast]
  · rw [selectWordset_natCast]

/-- The selector at week 7. -/
theorem selectWordset_spec_witness :
    1 ≤ 7 ∧ selectWordset (.fin ((7 : ℕ) : ℚ)) = some ((7 - 1) % 3) :=
  ⟨by decide, (selectWordset_spec 7 (by decide)).1⟩

/-! ## The shuffler -/

theorem cons_set_perm {α : Type} (x y : α) :
    ∀ (t : List α) (j : Nat), t[j]? = some y → List.Perm (y :: t.set j x) (x :: t)
  | [], j, h => by simp at h
  | h :: t, 0, hj => by
    simp at hj
    subst hj
    simpa using List.Perm.swap x h t
  | h :: t, j + 1, hj => by
    simp at hj
    have ih := cons_set_perm x y t j hj
    simp only [List.set_cons_succ]
    exact ((List.Perm.swap h y _).trans (ih.cons h)).trans (List.Perm.swap x h t)

theorem set_set_perm {α : Type} (x y : α) :
    ∀ (a : List α) (i j : Nat), a[i]? = some x → a[j]? = some y →
      List.Perm ((a.set i y).set j x) a
  | [], i, j, hi, _ => by simp at hi
  | h :: t, 0, 0, hi, hj => by
    simp at hi hj
    subst hi
    simp
  | h :: t, 0, j + 1, hi, hj => by
    simp at hi hj
    subst hi
    simpa using cons_set_perm h y t j hj
  | h :: t, i + 1, 0, hi, hj => by
    simp at hi hj
    subst hj
    simpa using cons_set_perm h x t i hi
  | h :: t, i + 1, j + 1, hi, hj => by
    simp at hi hj
    simpa using (set_set_perm x y t i j hi hj).cons h

theorem swapAt_perm {α : Type} (a : List α) (i j : Nat) : List.Perm (swapAt a i j) a := by
  unfold swapAt
  split
  · next x y hi hj => exact set_set_perm x y a i j hi hj
  · exact List.Perm.refl a

theorem shuffleLoop_perm {α : Type} (draw : Draws) :
    ∀ (i : Nat) (a : List α), List.Perm (shuffleLoop draw i a) a
  | 0, a => List.Perm.refl a
  | i + 1, a => (shuffleLoop_perm draw i _).trans (swapAt_perm a _ _)

theorem shuffle_perm {α : Type} (draw : Draws) (arr : List α) :
    List.Perm (shuffle draw arr) arr :=
  shuffleLoop_perm draw _ arr

theorem shuffle_length {α : Type} (draw : Draws) (arr : List α) :
    (shuffle draw arr).length = arr.length :=
  (shuffle_perm draw arr).length_eq

/-- C3: for every input array and every sequence of draws, `shuffle` returns an
array of the same length with the same multiset of elements, and the input
array is the same after the call. -/
theorem shuffle_permutation {α : Type} (draw : Draws) (arr : List α) :
    (shuffle draw arr).length = arr.length ∧
    List.Perm (shuffle draw arr) arr ∧
    (shuffleArrays draw arr).arr = arr :=
  ⟨shuffle_length draw arr, shuffle_perm draw arr, rfl⟩

/-! ## Objects with numeric keys -/

theorem lookup_map_set {β : Type} (k : Nat) (v : β) :
    ∀ (m : List (Nat × β)) (k' : Nat),
      (m.map (fun e => if e.1 = k then (k, v) else e)).lookup k' =
        if k' = k then (m.lookup k').map (fun _ => v) else m.lookup k'
  | [], k' => by simp
  | (a, b) :: m, k' => by
    have ih := lookup_map_set k v m k'
    by_cases hk : k' = k
    · subst hk
      by_cases ha : a = k'
      · subst ha
        simp
      · have hne : (k' == a) = false := by simpa using fun h => ha h.symm
        simp only [List.map_cons, if_neg ha, List.lookup_cons, hne, ih]
    · by_cases ha : a = k
      · have hne : (k' == k) = false := by simpa using hk
        subst ha
        simp only [List.map_cons, if_true, List.lookup_cons, hne, ih, if_neg hk]
      · simp only [List.map_cons, if_neg ha, List.lookup_cons, ih, if_neg hk]

theorem lookup_eq_none_of_any_false {β : Type} (k : Nat) :
    ∀ (m : List (Nat × β)), m.any (fun e => e.1 == k) = false → m.lookup k = none
  | [], _ => rfl
  | (a, b) :: m, h => by
    simp only [List.any_cons, Bool.or_eq_false_iff] at h
    have hne : (k == a) = false := by
      have := h.1
      simp only [beq_eq_false_iff_ne, ne_eq] at this ⊢
      exact fun e => this e.symm
    simp only [List.lookup_cons, hne]
    exact lookup_eq_none_of_any_false k m h.2

theorem lookup_isSome_of_any {β : Type} (k : Nat) :
    ∀ (m : List (Nat × β)), m.any (fun e => e.1 == k) = true → (m.lookup k).isSome = true
  | [], h => by simp at h
  | (a, b) :: m, h => by
    by_cases ha : a = k
    · subst ha
      simp
    · have hne : (k == a) = false := by simpa using fun e => ha e.symm
      have hne2 : (a == k) = false := by simpa using ha
      simp only [List.any_cons, hne2, Bool.false_or] at h
      simp only [List.lookup_cons, hne]
      exact lookup_isSome_of_any k m h

/-- Reading back the key that was just written. -/
theorem lookup_objSet_self {β : Type} (m : List (Nat × β)) (k : Nat) (v : β) :
    (objSet m k v).lookup k = some v := by
  unfold objSet
  by_cases h : m.any (fun e => e.1 == k) = true
  · rw [if_pos h, lookup_map_set]
    have := lookup_isSome_of_any k m h
    cases hl : m.lookup k with
    | none => simp [hl] at this
    | some w => simp
  · have h2 : m.any (fun e => e.1 == k) = false := Bool.eq_false_iff.mpr h
    rw [if_neg h, List.lookup_append, lookup_eq_none_of_any_false k m h2]
    simp

/-- Writing one key leaves the others as they were. -/
theorem lookup_objSet_ne {β : Type} (m : List (Nat × β)) (k k' : Nat) (v : β) (hk : k' ≠ k) :
    (objSet m k v).lookup k' = m.lookup k' := by
  unfold objSet
  by_cases h : m.any (fun e => e.1 == k) = true
  · rw [if_pos h, lookup_map_set, if_neg hk]
  · rw [if_neg h, List.lookup_append]
    have hne : (k' == k) = false := by simp [hk]
    cases m.lookup k' <;> simp [List.lookup_cons, hne]

/-! ## The scorer -/

theorem countMatches_cons (inp : RoundInput) (rest : List RoundInput) :
    countMatches (inp :: rest) =
      countMatches rest + (if normalize inp.value = normalize inp.target then 1 else 0) := by
  unfold countMatches
  rw [List.countP_cons]
  simp

theorem countMatches_le (inputs : List RoundInput) : countMatches inputs ≤ inputs.length :=
  List.countP_le_length _

/-- With the answers of the current round in place, the loop of `scoreRound`
runs to its end, writes only `answersByRound`, and adds the number of countMatches. -/
theorem scoreLoop_ok :
    ∀ (inputs : List RoundInput) (s : State) (c : Nat),
      (s.answersByRound.lookup s.currentRound).isSome = true →
      ∃ ans, scoreLoop inputs s c = .ok ({ s with answersByRound := ans }, c + countMatches inputs) ∧
        (ans.lookup s.currentRound).isSome = true ∧
        ∀ k, (s.answersByRound.lookup k).isSome = true → (ans.lookup k).isSome = true
  | [], s, c, h => ⟨s.answersByRound, by simp [scoreLoop, countMatches], h, fun _ hk => hk⟩
  | inp :: rest, s, c, h => by
    cases hl : s.answersByRound.lookup s.currentRound with
    | none => simp [hl] at h
    | some row =>
      have hkeep : ∀ k, (s.answersByRound.lookup k).isSome = true →
          ((objSet s.answersByRound s.currentRound
            (arrSet row inp.pairIndex (normalize inp.value))).lookup k).isSome = true := by
        intro k hk
        by_cases e : k = s.currentRound
        · subst e
          rw [lookup_objSet_self]
          rfl
        · rw [lookup_objSet_ne _ _ _ _ e]
          exact hk
      let row1 := arrSet row inp.pairIndex (normalize inp.value)
      obtain ⟨ans, h1, h2, h3⟩ := scoreLoop_ok rest
        { s with answersByRound := objSet s.answersByRound s.currentRound row1 }
        (if normalize inp.value = normalize inp.target then c + 1 else c)
        (hkeep _ h)
      refine ⟨ans, ?_, h2, fun k hk => h3 k (hkeep k hk)⟩
      simp only [scoreLoop, hl]
      rw [h1, countMatches_cons]
      congr 2
      split <;> omega

/-- The loop of `scoreRound` either throws at once, leaving the state as it
was, or runs to its end as in `scoreLoop_ok`. -/
theorem scoreLoop_cases (inputs : List RoundInput) (s : State) :
    scoreLoop inputs s 0 = .error s ∨
    ∃ ans, scoreLoop inputs s 0 = .ok ({ s with answersByRound := ans }, countMatches inputs) ∧
      ∀ k, (s.answersByRound.lookup k).isSome = true → (ans.lookup k).isSome = true := by
  cases inputs with
  | nil => exact Or.inr ⟨s.answersByRound, by simp [scoreLoop, countMatches], fun _ h => h⟩
  | cons inp rest =>
    cases hl : s.answersByRound.lookup s.currentRound with
    | none => exact Or.inl (by simp [scoreLoop, hl])
    | some row =>
      obtain ⟨ans, h1, _, h3⟩ := scoreLoop_ok (inp :: rest) s 0 (by simp [hl])
      exact Or.inr ⟨ans, by simpa using h1, h3⟩

theorem scoreRound_ok (s : State)
    (h : (s.answersByRound.lookup s.currentRound).isSome = true) :
    ∃ ans, scoreRound s = .ok { s with
        answersByRound := ans,
        scoresByRound := objSet s.scoresByRound s.currentRound (countMatches s.roundInputs) } ∧
      ∀ k, (s.answersByRound.lookup k).isSome = true → (ans.lookup k).isSome = true := by
  obtain ⟨ans, h1, _, h3⟩ := scoreLoop_ok s.roundInputs s 0 h
  refine ⟨ans, ?_, h3⟩
  simp only [scoreRound, h1, Nat.zero_add]

/-! ## Normalization -/

theorem normalize_eq (v : String) : normalize v = toLowerCase (trim v) := by
  unfold normalize
  split
  · next h => rw [h]
  · rfl

/-- White space around a text does not change what `trim` keeps. -/
theorem trim_surround (l pre post : List Char) (hpre : ∀ c ∈ pre, isTrimChar c = true)
    (hpost : ∀ c ∈ post, isTrimChar c = true) :
    (((pre ++ l ++ post).dropWhile isTrimChar).reverse.dropWhile isTrimChar).reverse =
      ((l.dropWhile isTrimChar).reverse.dropWhile isTrimChar).reverse := by
  have hrev : ∀ c ∈ post.reverse, isTrimChar c = true := by
    intro c hc
    exact hpost c (List.mem_reverse.mp hc)
  rw [List.append_assoc, List.dropWhile_append_of_pos hpre, List.dropWhile_append]
  split
  · next he =>
    have hnil : l.dropWhile isTrimChar = [] := by simpa using he
    have hpnil : post.dropWhile isTrimChar = [] := List.dropWhile_eq_nil_iff.mpr hpost
    rw [hnil, hpnil]
  · rw [List.reverse_append, List.dropWhile_append_of_pos hrev]

/-- A text without white space is kept whole by `trim`. -/
theorem trim_keep (l : List Char) (h : ∀ c ∈ l, isTrimChar c = false) :
    ((l.dropWhile isTrimChar).reverse.dropWhile isTrimChar).reverse = l := by
  have h1 : ∀ (m : List Char), (∀ c ∈ m, isTrimChar c = false) → m.dropWhile isTrimChar = m := by
    intro m hm
    cases m with
    | nil => rfl
    | cons x xs => simp [List.dropWhile_cons, hm x (List.mem_cons_self x xs)]
  rw [h1 l h, h1 l.reverse (fun c hc => h c (List.mem_reverse.mp hc)), List.reverse_reverse]

theorem asciiLower_cases (c : Char) :
    asciiLower c = c ∨
    ∃ n, 65 ≤ n ∧ n ≤ 90 ∧ c = Char.ofNat n ∧ asciiLower c = Char.ofNat (n + 32) := by
  unfold asciiLower
  by_cases h : 65 ≤ c.toNat ∧ c.toNat ≤ 90
  · right
    exact ⟨c.toNat, h.1, h.2, (Char.ofNat_toNat c).symm, by rw [if_pos h]⟩
  · left
    rw [if_neg h]

set_option maxRecDepth 100000 in
/-- The capital and the small ASCII letter are alike for `trim`, for the
final-sigma context and for the lowercase mapping. -/
theorem upper_facts (n : Nat) (h1 : 65 ≤ n) (h2 : n ≤ 90) :
    isTrimChar (Char.ofNat (n + 32)) = isTrimChar (Char.ofNat n) ∧
    inRanges (Char.ofNat (n + 32)).toNat ignorableRanges =
      inRanges (Char.ofNat n).toNat ignorableRanges ∧
    inRanges (Char.ofNat (n + 32)).toNat casedRanges =
      inRanges (Char.ofNat n).toNat casedRanges ∧
    (Char.ofNat (n + 32)).toNat ≠ 931 ∧ (Char.ofNat n).toNat ≠ 931 ∧
    (Char.ofNat (n + 32)).toNat ≠ 304 ∧ (Char.ofNat n).toNat ≠ 304 ∧
    Char.ofNat (lowerCode (Char.ofNat (n + 32)).toNat) =
      Char.ofNat (lowerCode (Char.ofNat n).toNat) := by
  interval_cases n <;> decide

set_option maxRecDepth 100000 in
/-- A small ASCII letter is not white space and is its own lowercase. -/
theorem lower_facts (n : Nat) (h1 : 97 ≤ n) (h2 : n ≤ 122) :
    isTrimChar (Char.ofNat n) = false ∧
    (Char.ofNat n).toNat ≠ 931 ∧ (Char.ofNat n).toNat ≠ 304 ∧
    Char.ofNat (lowerCode (Char.ofNat n).toNat) = Char.ofNat n := by
  interval_cases n <;> decide

theorem isTrimChar_asciiLower (c : Char) : isTrimChar (asciiLower c) = isTrimChar c := by
  rcases asciiLower_cases c with h | ⟨n, h1, h2, hc, h⟩
  · rw [h]
  · rw [h, hc]
    exact (upper_facts n h1 h2).1

theorem followedByCased_map :
    ∀ (l : List Char), followedByCased (l.map asciiLower) = followedByCased l
  | [] => rfl
  | c :: rest => by
    have ih := followedByCased_map rest
    rcases asciiLower_cases c with h | ⟨n, h1, h2, hc, h⟩
    · simp only [List.map_cons, followedByCased, h, ih]
    · obtain ⟨_, f2, f3, _⟩ := upper_facts n h1 h2
      simp only [List.map_cons, followedByCased, h, ih]
      rw [hc, f2, f3]

theorem lowerAt_map (before : List Char) (c : Char) (after : List Char) :
    lowerAt (before.map asciiLower) (asciiLower c) (after.map asciiLower) =
      lowerAt before c after := by
  unfold lowerAt
  rw [followedByCased_map, followedByCased_map]
  rcases asciiLower_cases c with h | ⟨n, h1, h2, hc, h⟩
  · rw [h]
  · obtain ⟨_, _, _, f4, f5, f6, f7, f8⟩ := upper_facts n h1 h2
    rw [h, hc, if_neg f4, if_neg f5, if_neg f6, if_neg f7, f8]

theorem lowerFrom_map :
    ∀ (l before : List Char),
      lowerFrom (before.map asciiLower) (l.map asciiLower) = lowerFrom before l
  | [], _ => rfl
  | c :: rest, before => by
    have ih := lowerFrom_map rest (c :: before)
    simp only [List.map_cons] at ih
    simp only [List.map_cons, lowerFrom, lowerAt_map, ih]

theorem trim_map (l : List Char) :
    (((l.map asciiLower).dropWhile isTrimChar).reverse.dropWhile isTrimChar).reverse =
      (((l.dropWhile isTrimChar).reverse.dropWhile isTrimChar).reverse).map asciiLower := by
  have hp : (isTrimChar ∘ asciiLower) = isTrimChar := by
    funext c
    exact isTrimChar_asciiLower c
  rw [List.dropWhile_map, hp, ← List.map_reverse, List.dropWhile_map, hp, ← List.map_reverse]

/-- Two texts that differ only in the case of ASCII letters normalize alike. -/
theorem normalize_ascii_case (v w : String)
    (h : v.data.map asciiLower = w.data.map asciiLower) : normalize v = normalize w := by
  rw [normalize_eq, normalize_eq]
  unfold toLowerCase trim
  congr 1
  show lowerFrom [] _ = lowerFrom [] _
  have e1 := lowerFrom_map
    (((v.data.dropWhile isTrimChar).reverse.dropWhile isTrimChar).reverse) []
  have e2 := lowerFrom_map
    (((w.data.dropWhile isTrimChar).reverse.dropWhile isTrimChar).reverse) []
  simp only [List.map_nil] at e1 e2
  rw [← e1, ← e2, ← trim_map, ← trim_map, h]

/-- White space around a text does not change its normalization. -/
theorem normalize_surround (v : String) (pre post : List Char)
    (hpre : ∀ c ∈ pre, isTrimChar c = true) (hpost : ∀ c ∈ post, isTrimChar c = true) :
    normalize ⟨pre ++ v.data ++ post⟩ = normalize v := by
  rw [normalize_eq, normalize_eq]
  unfold toLowerCase trim
  congr 2
  exact trim_surround v.data pre post hpre hpost

theorem lowerFrom_small :
    ∀ (l before : List Char), (∀ c ∈ l, 97 ≤ c.toNat ∧ c.toNat ≤ 122) → lowerFrom before l = l
  | [], _, _ => rfl
  | c :: rest, before, h => by
    have hc := h c (List.mem_cons_self c rest)
    obtain ⟨_, f2, f3, f4⟩ := lower_facts c.toNat hc.1 hc.2
    rw [Char.ofNat_toNat] at f2 f3 f4
    have ih := lowerFrom_small rest (c :: before)
      (fun x hx => h x (List.mem_cons_of_mem c hx))
    simp only [lowerFrom, lowerAt, if_neg f2, if_neg f3, f4, ih, List.singleton_append]

/-- A word of small ASCII letters is its own normalization. -/
theorem normalize_small (v : String) (h : ∀ c ∈ v.data, 97 ≤ c.toNat ∧ c.toNat ≤ 122) :
    normalize v = v := by
  have hws : ∀ c ∈ v.data, isTrimChar c = false := by
    intro c hc
    have f := (lower_facts c.toNat (h c hc).1 (h c hc).2).1
    rwa [Char.ofNat_toNat] at f
  rw [normalize_eq]
  unfold toLowerCase trim
  show String.mk (lowerFrom [] _) = v
  rw [trim_keep v.data hws, lowerFrom_small v.data [] h]

theorem normalize_example : normalize " Cat " = normalize "cat" := by decide

theorem normalize_kelvin : normalize "mas\u212a" = normalize "mask" := by decide

/-- C2: whenever the answers array of the current round exists (every
`startRound` creates it), `scoreRound` stores in `scoresByRound[currentRound]`
the number of inputs whose normalized typed value equals the normalized
target.  Normalization is `trim` followed by `toLowerCase`: white space around
a text does not change it, two texts that differ only in the case of ASCII
letters normalize alike, a word of small ASCII letters is its own
normalization, and lowercasing is the Unicode one (the Kelvin sign becomes
`k`); so the typed value `" Cat "` matches the target `"cat"`. -/
theorem scoreRound_counts (s : State)
    (h : (s.answersByRound.lookup s.currentRound).isSome = true) :
    (∃ s', scoreRound s = .ok s' ∧
      s'.scoresByRound.lookup s.currentRound =
        some (s.roundInputs.countP
          (fun inp => decide (normalize inp.value = normalize inp.target)))) ∧
    (∀ v : String, normalize v = toLowerCase (trim v)) ∧
    (∀ (v : String) (pre post : List Char),
      (∀ c ∈ pre, isTrimChar c = true) → (∀ c ∈ post, isTrimChar c = true) →
      normalize ⟨pre ++ v.data ++ post⟩ = normalize v) ∧
    (∀ v w : String, v.data.map asciiLower = w.data.map asciiLower →
      normalize v = normalize w) ∧
    (∀ v : String, (∀ c ∈ v.data, 97 ≤ c.toNat ∧ c.toNat ≤ 122) → normalize v = v) ∧
    normalize "mas\u212a" = normalize "mask" ∧
    normalize " Cat " = normalize "cat" := by
  obtain ⟨ans, h1, _⟩ := scoreRound_ok s h
  exact ⟨⟨_, h1, lookup_objSet_self _ _ _⟩, normalize_eq, normalize_surround,
    normalize_ascii_case, normalize_small, normalize_kelvin, normalize_example⟩

/-- Scoring a round of two inputs, one of them right up to case and spaces;
white space around `Ring`; `RING` against `ring`; and the word `ring`. -/
theorem scoreRound_counts_witness :
    (∃ s', scoreRound { initialState with
        currentRound := 1,
        roundInputs := [⟨"cat", 0, "ring", " Ring "⟩, ⟨"jam", 1, "sun", "son"⟩] } = .ok s' ∧
      s'.scoresByRound.lookup 1 = some 1) ∧
    normalize ⟨[' ', '\t'] ++ "Ring".data ++ ['\n']⟩ = normalize "Ring" ∧
    normalize "RING" = normalize "ring" ∧
    normalize "ring" = "ring" :=
  ⟨(scoreRound_counts { initialState with
        currentRound := 1,
        roundInputs := [⟨"cat", 0, "ring", " Ring "⟩, ⟨"jam", 1, "sun", "son"⟩] } (by decide)).1,
   (scoreRound_counts { initialState with currentRound := 1 } (by decide)).2.2.1 "Ring" [' ', '\t'] ['\n']
     (by decide) (by decide),
   (scoreRound_counts { initialState with currentRound := 1 } (by decide)).2.2.2.1 "RING" "ring" (by decide),
   (scoreRound_counts { initialState with currentRound := 1 } (by decide)).2.2.2.2.1 "ring" (by decide)⟩

/-! ## Starting a round -/

/-- The presentation order of a round: the shuffled pair indices. -/
theorem startRound_order (rnd : Rand) (n : Nat) (s : State) :
    (startRound rnd n s).roundInputs.map (fun inp => inp.pairIndex) =
      shuffle rnd.draw (List.range s.pairs.length) := by
  simp only [startRound, setPhase, List.map_map]
  conv_rhs => rw [← List.enum_map_snd (shuffle rnd.draw (List.range s.pairs.length))]
  apply List.map_congr_left
  intro x _
  rfl

theorem startRound_length (rnd : Rand) (n : Nat) (s : State) :
    (startRound rnd n s).roundInputs.length = s.pairs.length := by
  have h := congrArg List.length (startRound_order rnd n s)
  simpa [shuffle_length] using h

/-- Every item of a round shows one member of its pair and asks for the other. -/
theorem startRound_items (rnd : Rand) (n : Nat) (s : State) :
    ∀ inp ∈ (startRound rnd n s).roundInputs,
      ∃ p side, s.pairs[inp.pairIndex]? = some p ∧ side < 2 ∧
        inp.cue = pairAt p side ∧ inp.target = pairAt p (1 - side) ∧ inp.value = "" := by
  intro inp hinp
  simp only [startRound, setPhase, List.mem_map] at hinp
  obtain ⟨⟨k, idx⟩, hmem, rfl⟩ := hinp
  have hidx : idx ∈ shuffle rnd.draw (List.range s.pairs.length) := by
    have := List.mem_map_of_mem Prod.snd hmem
    rwa [List.enum_map_snd] at this
  have hlt : idx < s.pairs.length := by
    have := (shuffle_perm rnd.draw (List.range s.pairs.length)).mem_iff.mp hidx
    simpa using this
  refine ⟨s.pairs[idx], if rnd.side k then 0 else 1, ?_, ?_, ?_, ?_, rfl⟩
  · simp [List.getElem?_eq_getElem hlt]
  · split <;> decide
  · simp [List.getD_eq_getElem?_getD, List.getElem?_eq_getElem hlt]
  · simp [List.getD_eq_getElem?_getD, List.getElem?_eq_getElem hlt]

/-- C6: a round started over twelve pairs presents each pair index `0..11`
exactly once; in every item the cue is one member of the pair at that index
and the target is the other member; and the pairs are the same as before. -/
theorem startRound_presentation (rnd : Rand) (n : Nat) (s : State)
    (h12 : s.pairs.length = 12) :
    List.Perm ((startRound rnd n s).roundInputs.map (fun inp => inp.pairIndex))
      (List.range 12) ∧
    (∀ inp ∈ (startRound rnd n s).roundInputs,
      ∃ p side, s.pairs[inp.pairIndex]? = some p ∧ side < 2 ∧
        inp.cue = pairAt p side ∧ inp.target = pairAt p (1 - side)) ∧
    (startRound rnd n s).pairs = s.pairs := by
  refine ⟨?_, ?_, rfl⟩
  · rw [startRound_order, h12]
    exact shuffle_perm _ _
  · intro inp hinp
    obtain ⟨p, side, h1, h2, h3, h4, _⟩ := startRound_items rnd n s inp hinp
    exact ⟨p, side, h1, h2, h3, h4⟩

/-- Round 2 started over the second wordset. -/
theorem startRound_presentation_witness :
    List.Perm
      ((startRound ⟨fun i => i + 5, fun k => k % 2 == 0⟩ 2
        { initialState with pairs := WORDSETS.getD 1 [] }).roundInputs.map
          (fun inp => inp.pairIndex))
      (List.range 12) :=
  (startRound_presentation ⟨fun i => i + 5, fun k => k % 2 == 0⟩ 2
    { initialState with pairs := WORDSETS.getD 1 [] } (by decide)).1

/-! ## The start action -/

theorem wordsetAt_lt (k : Nat) (hk : k < 3) :
    ∃ ws, wordsetAt (some k) = some ws ∧ ws.length = 12 ∧ WORDSETS[k]? = some ws := by
  have h : k = 0 ∨ k = 1 ∨ k = 2 := by omega
  rcases h with rfl | rfl | rfl
  · exact ⟨_, rfl, rfl, rfl⟩
  · exact ⟨_, rfl, rfl, rfl⟩
  · exact ⟨_, rfl, rfl, rfl⟩

theorem wordsetAt_length (i : Option Nat) (ws : List (String × String))
    (h : wordsetAt i = some ws) : ws.length = 12 := by
  cases i with
  | none => simp [wordsetAt] at h
  | some k =>
    by_cases hk : k < 3
    · obtain ⟨ws1, h1, h2, _⟩ := wordsetAt_lt k hk
      rw [h1] at h
      cases h
      exact h2
    · have h3 : WORDSETS.length = 3 := rfl
      have : WORDSETS[k]? = none := List.getElem?_eq_none (by omega)
      simp [wordsetAt, this] at h

theorem renderStudyPair_ok (s : State) (h : s.studyIdx < s.pairs.length) :
    renderStudyPair s = .ok { s with shownPair := s.pairs[s.studyIdx]? } := by
  unfold renderStudyPair
  rw [List.getElem?_eq_getElem h]

/-- A value that is `NaN`, or below 1, is rejected: the listener returns with
the state as it was. -/
theorem startClick_reject (draw : Draws) (val : JSNum) (s : State)
    (h : val = .nan ∨ val.lt 1 = true) : startClick draw val s = .ok s := by
  unfold startClick
  rcases h with h | h
  · subst h
    simp [JSNum.falsy]
  · simp [h]

/-- On a natural week number `≥ 1` the start listener runs to its end. -/
theorem startClick_natCast (draw : Draws) (n : ℕ) (hn : 1 ≤ n) (s : State) :
    ∃ ws, WORDSETS[(n + 2) % 3]? = some ws ∧ ws.length = 12 ∧
      startClick draw (.fin (n : ℚ)) s = .ok { s with
        weekNumber := some (.fin (n : ℚ)),
        wordsetIndex := some ((n + 2) % 3),
        pairs := shuffle draw ws,
        phase := .study,
        studyIdx := 0,
        shownPair := (shuffle draw ws)[0]?,
        timers := s.timers ++ [(s.nextTimerId, .nextStudyPair)],
        nextTimerId := s.nextTimerId + 1,
        studyTimer := some s.nextTimerId } := by
  obtain ⟨ws, h1, h2, h3⟩ := wordsetAt_lt ((n + 2) % 3) (Nat.mod_lt _ (by decide))
  refine ⟨ws, h3, h2, ?_⟩
  have hq0 : ¬ ((n : ℚ) = 0) := by
    have : (0 : ℚ) < n := by exact_mod_cast hn
    exact ne_of_gt this
  have hq1 : ¬ ((n : ℚ) < 1) := by
    have : (1 : ℚ) ≤ n := by exact_mod_cast hn
    exact not_lt.mpr this
  have hguard : ((JSNum.fin (n : ℚ)).falsy || (JSNum.fin (n : ℚ)).lt 1) = false := by
    simp [JSNum.falsy, JSNum.lt, hq0, hq1]
  have hlen : 0 < (shuffle draw ws).length := by
    rw [shuffle_length, h2]
    decide
  unfold startClick
  simp only [hguard, selectWordset_natCast, h1, Bool.false_eq_true, if_false]
  unfold startStudy
  simp only [setPhase]
  rw [renderStudyPair_ok _ hlen]
  rfl

/-- C5, the value one half: it is numeric and positive, and the start action
leaves the page in setup. -/
theorem start_half_rejected :
    (0 : ℚ) < 1 / 2 ∧
    (step (.start "0.5" (.fin (1 / 2)) (fun _ => 0)) initialState).phase = .setup ∧
    (step (.start "0.5" (.fin (1 / 2)) (fun _ => 0)) initialState).pairs = [] := by
  have h : (JSNum.fin (1 / 2)).lt 1 = true := by
    simp only [JSNum.lt, decide_eq_true_eq]
    norm_num
  refine ⟨by norm_num, ?_, ?_⟩
  · simp only [step, startClick_reject _ _ _ (Or.inr h), settle]
    rfl
  · simp only [step, startClick_reject _ _ _ (Or.inr h), settle]
    rfl

/-- C5, as amended: a week value that is `NaN`, or below 1 (zero, a negative
number, a fraction below 1, `-Infinity`), is rejected and the state stays as it
was; for every integer week value `≥ 1` the listener runs to its end, the
wordset index is 0, 1 or 2, the pairs are a 12-element permutation of that
wordset, and the phase is study. -/
theorem startClick_spec (draw : Draws) (s : State) (val : JSNum) (week : ℕ) :
    ((val = .nan ∨ val = .negInf ∨ ∃ q : ℚ, val = .fin q ∧ q < 1) →
      startClick draw val s = .ok s) ∧
    (1 ≤ week →
      ∃ s' i ws, startClick draw (.fin (week : ℚ)) s = .ok s' ∧
        s'.wordsetIndex = some i ∧ i < 3 ∧ WORDSETS[i]? = some ws ∧
        List.Perm s'.pairs ws ∧ s'.pairs.length = 12 ∧ s'.phase = .study) := by
  constructor
  · intro h
    apply startClick_reject
    rcases h with h | h | ⟨q, h, hq⟩
    · exact Or.inl h
    · subst h
      exact Or.inr rfl
    · subst h
      exact Or.inr (by simp [JSNum.lt, hq])
  · intro hweek
    obtain ⟨ws, h1, h2, h3⟩ := startClick_natCast draw week hweek s
    refine ⟨_, (week + 2) % 3, ws, h3, rfl, Nat.mod_lt _ (by decide), h1,
      shuffle_perm draw ws, ?_, rfl⟩
    show (shuffle draw ws).length = 12
    rw [shuffle_length, h2]

/-- The start listener on `NaN` and on week 5. -/
theorem startClick_spec_witness :
    startClick (fun _ => 0) JSNum.nan initialState = .ok initialState ∧
    ∃ s' i ws, startClick (fun _ => 0) (.fin ((5 : ℕ) : ℚ)) initialState = .ok s' ∧
        s'.wordsetIndex = some i ∧ i < 3 ∧ WORDSETS[i]? = some ws ∧
        List.Perm s'.pairs ws ∧ s'.pairs.length = 12 ∧ s'.phase = .study :=
  ⟨(startClick_spec (fun _ => 0) initialState JSNum.nan 5).1 (Or.inl rfl),
   (startClick_spec (fun _ => 0) initialState JSNum.nan 5).2 (by decide)⟩

theorem abs_nine_halves : |(9 / 2 : ℚ)| = 9 / 2 := abs_of_pos (by norm_num)

theorem ofRat_nine_halves : JSNum.ofRat (9 / 2) = .fin (9 / 2) := by
  have hfl : floorLog2 (9 / 2) = 2 := by
    have hn : (9 / 2 : ℚ).num = 9 := by norm_num
    have hd : (9 / 2 : ℚ).den = 2 := by norm_num
    simp only [floorLog2, hn, hd, abs_nine_halves]
    norm_num [ilog2]
  have hq : (9 / 2 : ℚ) / 2 ^ ((2 : ℤ) - 52) = ((5066549580791808 : ℤ) : ℚ) := by
    norm_num [zpow_sub₀, zpow_neg]
  have hr : roundHalfEven (((5066549580791808 : ℤ) : ℚ)) = 5066549580791808 := by
    simp only [roundHalfEven, Int.floor_intCast, sub_self]
    norm_num
  have hmax : max (2 : ℤ) (-1022) = 2 := by decide
  unfold JSNum.ofRat
  simp only [hfl, hmax, hq, hr]
  norm_num [zpow_sub₀, zpow_neg]

theorem selectWordset_three_halves : selectWordset (.fin (3 / 2)) = none := by
  have hf1 : ⌊(3 / 2 : ℚ) / 3⌋ = 0 := Int.floor_eq_iff.mpr ⟨by norm_num, by norm_num⟩
  have hf2 : ⌊(9 / 2 : ℚ) / 3⌋ = 1 := Int.floor_eq_iff.mpr ⟨by norm_num, by norm_num⟩
  have h1 : (JSNum.fin (3 / 2)).rem 3 = .fin (3 / 2) := by
    have h0 : (0 : ℚ) ≤ 3 / 2 / 3 := by norm_num
    simp only [JSNum.rem, truncate, if_pos h0, hf1]
    norm_num
  have h2 : (JSNum.fin (9 / 2)).rem 3 = .fin (3 / 2) := by
    have h0 : (0 : ℚ) ≤ 9 / 2 / 3 := by norm_num
    simp only [JSNum.rem, truncate, if_pos h0, hf2]
    norm_num
  have h3 : (3 / 2 : ℚ) + 3 = 9 / 2 := by norm_num
  unfold selectWordset
  simp only [h1, JSNum.add, h3, ofRat_nine_halves, h2, wordsetMap]
  norm_num

/-- The week value 1.5 passes the check of the start listener, the selector
returns `undefined` for it, and the listener throws before any pair is set. -/
theorem start_three_halves_throws :
    ∃ s', startClick (fun _ => 0) (.fin (3 / 2)) initialState = .error s' ∧
      s'.phase = .setup ∧ s'.pairs = [] ∧ s'.wordsetIndex = none := by
  have hguard : ((JSNum.fin (3 / 2)).falsy || (JSNum.fin (3 / 2)).lt 1) = false := by
    norm_num [JSNum.falsy, JSNum.lt]
  unfold startClick
  simp only [hguard, selectWordset_three_halves, wordsetAt, Bool.false_eq_true, if_false]
  exact ⟨_, rfl, rfl, rfl, rfl⟩

/-! ## The effect of each function on the state -/

theorem renderStudyPair_cases (s : State) :
    renderStudyPair s = .error s ∨
    renderStudyPair s = .ok { s with shownPair := s.pairs[s.studyIdx]? } := by
  unfold renderStudyPair
  cases h : s.pairs[s.studyIdx]? with
  | none => exact Or.inl rfl
  | some p => exact Or.inr rfl

theorem startStudy_cases (s : State) :
    startStudy s = .error { s with phase := .study, studyIdx := 0 } ∨
    startStudy s = .ok { s with
      phase := .study, studyIdx := 0, shownPair := s.pairs[0]?,
      timers := s.timers ++ [(s.nextTimerId, .nextStudyPair)],
      nextTimerId := s.nextTimerId + 1, studyTimer := some s.nextTimerId } := by
  unfold startStudy
  simp only [setPhase]
  rcases renderStudyPair_cases { s with phase := .study, studyIdx := 0 } with h | h
  · left
    rw [h]
  · right
    rw [h]
    rfl

theorem startStudyAgainThenRound_cases (n : Nat) (s : State) :
    startStudyAgainThenRound n s = .error { s with phase := .study, studyIdx := 0 } ∨
    startStudyAgainThenRound n s = .ok { s with
      phase := .study, studyIdx := 0, shownPair := s.pairs[0]?,
      timers := (if truthy s.studyTimer then
          s.timers.filter (fun t => t.1 != s.studyTimer.getD 0) else s.timers) ++
        [(s.nextTimerId, .studyAgain n)],
      nextTimerId := s.nextTimerId + 1, studyTimer := some s.nextTimerId } := by
  unfold startStudyAgainThenRound
  simp only [setPhase]
  rcases renderStudyPair_cases { s with phase := .study, studyIdx := 0 } with h | h
  · left
    rw [h]
  · right
    rw [h]
    cases hst : s.studyTimer with
    | none => simp [truthy, setInterval, hst]
    | some id =>
      by_cases hid : id = 0
      · simp [truthy, setInterval, hst, hid]
      · simp [truthy, setInterval, clearInterval, hst, hid]

theorem runCallback_mid (cb : Callback) (rnd : Rand) (s : State)
    (h : s.studyIdx + 1 < s.pairs.length) :
    runCallback cb rnd s =
      .ok { s with studyIdx := s.studyIdx + 1, shownPair := s.pairs[s.studyIdx + 1]? } := by
  have hn : ¬ (s.studyIdx + 1 ≥ s.pairs.length) := by omega
  cases cb with
  | nextStudyPair =>
    simp only [runCallback, nextStudyPair, if_neg hn]
    exact renderStudyPair_ok { s with studyIdx := s.studyIdx + 1 } h
  | studyAgain n =>
    simp only [runCallback, studyAgainTick, if_neg hn]
    exact renderStudyPair_ok { s with studyIdx := s.studyIdx + 1 } h

theorem runCallback_end (cb : Callback) (rnd : Rand) (s : State)
    (h : s.pairs.length ≤ s.studyIdx + 1) :
    runCallback cb rnd s =
      .ok (startRound rnd (roundOf cb)
        (clearInterval s.studyTimer { s with studyIdx := s.studyIdx + 1 })) := by
  have hn : s.studyIdx + 1 ≥ s.pairs.length := h
  cases cb with
  | nextStudyPair => simp only [runCallback, nextStudyPair, if_pos hn, roundOf]
  | studyAgain n => simp only [runCallback, studyAgainTick, if_pos hn, roundOf]

theorem typeAnswers_length :
    ∀ (inputs : List RoundInput) (typed : List String),
      (typeAnswers inputs typed).length = inputs.length
  | [], _ => by simp [typeAnswers]
  | _ :: _, [] => by simp [typeAnswers]
  | _ :: rest, _ :: vs => by simp [typeAnswers, typeAnswers_length rest vs]

theorem scoreRound_cases (s : State) :
    scoreRound s = .error s ∨
    ∃ ans, scoreRound s = .ok { s with
        answersByRound := ans,
        scoresByRound := objSet s.scoresByRound s.currentRound (countMatches s.roundInputs) } := by
  rcases scoreLoop_cases s.roundInputs s with h | ⟨ans, h, _⟩
  · left
    simp only [scoreRound, h]
  · right
    exact ⟨ans, by simp only [scoreRound, h]⟩

/-! ## The timer invariant -/

theorem timerInv_empty (s : State) (ht : s.timers = []) (hn : 1 ≤ s.nextTimerId) :
    TimerInv s :=
  ⟨Or.inl ht, hn⟩

theorem timerInv_congr (s s' : State) (h : TimerInv s) (h1 : s'.timers = s.timers)
    (h2 : s'.studyTimer = s.studyTimer) (h3 : s'.phase = s.phase)
    (h4 : s'.nextTimerId = s.nextTimerId) : TimerInv s' := by
  unfold TimerInv at *
  rw [h1, h2, h3, h4]
  exact h

/-- Outside the study phase no timer is active. -/
theorem timers_nil_of_phase (s : State) (h : TimerInv s) (hp : s.phase ≠ .study) :
    s.timers = [] := by
  rcases h.1 with h1 | ⟨_, _, _, _, _, h5⟩
  · exact h1
  · exact absurd h5 hp

/-- Clearing the timer named by `studyTimer` leaves no timer active. -/
theorem filter_studyTimer_nil (s : State) (h : TimerInv s) :
    s.timers.filter (fun t => t.1 != s.studyTimer.getD 0) = [] := by
  rcases h.1 with h1 | ⟨id, cb, h1, h2, _, _⟩
  · rw [h1]
    rfl
  · rw [h1, h2]
    simp

theorem clearInterval_timers (s : State) (h : TimerInv s) (s' : State)
    (h1 : s'.timers = s.timers) : (clearInterval s.studyTimer s').timers = [] := by
  rcases h.1 with h2 | ⟨id, cb, h2, h3, _, _⟩
  · cases hst : s.studyTimer with
    | none => simp [clearInterval, h1, h2]
    | some id => simp [clearInterval, h1, h2]
  · rw [h3]
    simp [clearInterval, h1, h2]

theorem timerInv_startStudy (s : State) (ht : s.timers = []) (hn : 1 ≤ s.nextTimerId) :
    TimerInv (settle (startStudy s)) ∧
    ((settle (startStudy s)).timers = [] ∨
      (settle (startStudy s)).timers = [(s.nextTimerId, .nextStudyPair)]) := by
  rcases startStudy_cases s with h | h
  · rw [h]
    exact ⟨timerInv_empty _ ht hn, Or.inl ht⟩
  · rw [h]
    refine ⟨⟨Or.inr ⟨s.nextTimerId, .nextStudyPair, ?_, rfl, by omega, rfl⟩, ?_⟩, Or.inr ?_⟩
    · simp [settle, ht]
    · show 1 ≤ s.nextTimerId + 1
      omega
    · simp [settle, ht]

theorem timerInv_startStudyAgain (n : Nat) (s : State) (ht : s.timers = [])
    (hn : 1 ≤ s.nextTimerId) :
    TimerInv (settle (startStudyAgainThenRound n s)) ∧
    ((settle (startStudyAgainThenRound n s)).timers = [] ∨
      (settle (startStudyAgainThenRound n s)).timers = [(s.nextTimerId, .studyAgain n)]) := by
  have hf : (if truthy s.studyTimer then
      s.timers.filter (fun t => t.1 != s.studyTimer.getD 0) else s.timers) = [] := by
    rw [ht]
    split <;> rfl
  rcases startStudyAgainThenRound_cases n s with h | h
  · rw [h]
    exact ⟨timerInv_empty _ ht hn, Or.inl ht⟩
  · rw [h]
    refine ⟨⟨Or.inr ⟨s.nextTimerId, .studyAgain n, ?_, rfl, by omega, rfl⟩, ?_⟩, Or.inr ?_⟩
    · simp only [settle, hf, List.nil_append]
    · show 1 ≤ s.nextTimerId + 1
      omega
    · simp only [settle, hf, List.nil_append]

theorem timerInv_runCallback (cb : Callback) (rnd : Rand) (s : State) (h : TimerInv s) :
    TimerInv (settle (runCallback cb rnd s)) := by
  by_cases hmid : s.studyIdx + 1 < s.pairs.length
  · rw [runCallback_mid cb rnd s hmid]
    exact timerInv_congr s _ h rfl rfl rfl rfl
  · rw [runCallback_end cb rnd s (by omega)]
    apply timerInv_empty
    · show (clearInterval s.studyTimer { s with studyIdx := s.studyIdx + 1 }).timers = []
      exact clearInterval_timers s h _ rfl
    · have h2 : (clearInterval s.studyTimer { s with studyIdx := s.studyIdx + 1 }).nextTimerId
          = s.nextTimerId := by
        cases s.studyTimer <;> rfl
      show 1 ≤ (clearInterval s.studyTimer { s with studyIdx := s.studyIdx + 1 }).nextTimerId
      rw [h2]
      exact h.2

theorem timerInv_startClick (draw : Draws) (val : JSNum) (s : State) (h : TimerInv s)
    (ht : s.timers = []) :
    TimerInv (settle (startClick draw val s)) ∧
    ((settle (startClick draw val s)).timers = [] ∨
      (settle (startClick draw val s)).timers = [(s.nextTimerId, .nextStudyPair)]) := by
  unfold startClick
  by_cases hg : (val.falsy || val.lt 1) = true
  · rw [if_pos hg]
    exact ⟨h, Or.inl ht⟩
  · rw [if_neg hg]
    cases hw : wordsetAt (selectWordset val) with
    | none =>
      simp only [hw]
      exact ⟨timerInv_empty _ ht h.2, Or.inl ht⟩
    | some ws =>
      simp only [hw]
      exact timerInv_startStudy _ ht h.2

theorem timerInv_submitClick (s : State) (h : TimerInv s) (ht : s.timers = []) :
    TimerInv (settle (submitClick s)) ∧
    ((settle (submitClick s)).timers = [] ∨
      (settle (submitClick s)).timers = [(s.nextTimerId, .studyAgain (s.currentRound + 1))]) := by
  unfold submitClick
  rcases scoreRound_cases s with hs | ⟨ans, hs⟩
  · rw [hs]
    exact ⟨h, Or.inl ht⟩
  · rw [hs]
    simp only [continueFlowAfterRound]
    split
    · exact timerInv_startStudyAgain _ _ ht h.2
    · exact ⟨timerInv_empty _ ht h.2, Or.inl ht⟩

theorem timerInv_restartClick (s : State) (h : TimerInv s) :
    TimerInv (restartClick s) ∧ (restartClick s).timers = [] := by
  have ht : (restartClick s).timers = [] := by
    rcases h.1 with h1 | ⟨id, cb, h1, h2, h3, _⟩
    · cases hst : s.studyTimer with
      | none => simp [restartClick, truthy, setPhase, hst, h1]
      | some id =>
        by_cases hid : id = 0
        · simp [restartClick, truthy, setPhase, hst, h1, hid]
        · simp [restartClick, truthy, setPhase, clearInterval, hst, h1, hid]
    · simp [restartClick, truthy, setPhase, clearInterval, h1, h2, h3]
  refine ⟨timerInv_empty _ ht ?_, ht⟩
  have hn : (restartClick s).nextTimerId = s.nextTimerId := by
    cases hst : s.studyTimer with
    | none => simp [restartClick, truthy, setPhase, hst]
    | some id =>
      by_cases hid : id = 0
      · simp [restartClick, truthy, setPhase, hst, hid]
      · simp [restartClick, truthy, setPhase, clearInterval, hst, hid]
  rw [hn]
  exact h.2

theorem timerInv_step (a : Action) (s : State) (h : TimerInv s) (he : enabled a s = true) :
    TimerInv (step a s) := by
  cases a with
  | start text val draw =>
    have hp : s.phase = .setup := by simpa [enabled] using he
    have ht : s.timers = [] := timers_nil_of_phase s h (by rw [hp]; decide)
    exact (timerInv_startClick draw val { s with weekInputValue := text }
      (timerInv_congr s _ h rfl rfl rfl rfl) ht).1
  | tick id rnd =>
    simp only [step, fire]
    cases s.timers.lookup id with
    | none => exact h
    | some cb => exact timerInv_runCallback cb rnd s h
  | skip rnd => exact timerInv_runCallback .nextStudyPair rnd s h
  | submit typed =>
    have hp : s.phase = .round := by simpa [enabled] using he
    have ht : s.timers = [] := timers_nil_of_phase s h (by rw [hp]; decide)
    exact (timerInv_submitClick { s with roundInputs := typeAnswers s.roundInputs typed }
      (timerInv_congr s _ h rfl rfl rfl rfl) ht).1
  | restart => exact (timerInv_restartClick s h).1

theorem timerInv_reachable (s : State) (h : Reachable s) : TimerInv s := by
  induction h with
  | init => exact timerInv_empty _ rfl (by decide)
  | step a s _ he ih => exact timerInv_step a s ih he

/-- C10: in every reachable state at most one pacing timer is active; and
after every action that can enter the study phase (the start action, through
`startStudy`, and submitting a round, through `startStudyAgainThenRound`) every
active timer carries the handle issued by that action, so that no timer started
earlier is still active. -/
theorem one_pacing_timer (s : State) (h : Reachable s) :
    s.timers.length ≤ 1 ∧
    (∀ text val draw, enabled (.start text val draw) s = true →
      ∀ t ∈ (step (.start text val draw) s).timers, t.1 = s.nextTimerId) ∧
    (∀ typed, enabled (.submit typed) s = true →
      ∀ t ∈ (step (.submit typed) s).timers, t.1 = s.nextTimerId) := by
  have hinv := timerInv_reachable s h
  refine ⟨?_, ?_, ?_⟩
  · rcases hinv.1 with h1 | ⟨id, cb, h1, _⟩
    · simp [h1]
    · simp [h1]
  · intro text val draw he t ht
    have hp : s.phase = .setup := by simpa [enabled] using he
    have hnil : s.timers = [] := timers_nil_of_phase s hinv (by rw [hp]; decide)
    have h2 := (timerInv_startClick draw val { s with weekInputValue := text }
      (timerInv_congr s _ hinv rfl rfl rfl rfl) hnil).2
    simp only [step] at ht
    rcases h2 with h2 | h2
    · rw [h2] at ht
      simp at ht
    · rw [h2] at ht
      simp only [List.mem_singleton] at ht
      rw [ht]
  · intro typed he t ht
    have hp : s.phase = .round := by simpa [enabled] using he
    have hnil : s.timers = [] := timers_nil_of_phase s hinv (by rw [hp]; decide)
    have h2 := (timerInv_submitClick { s with roundInputs := typeAnswers s.roundInputs typed }
      (timerInv_congr s _ hinv rfl rfl rfl rfl) hnil).2
    simp only [step] at ht
    rcases h2 with h2 | h2
    · rw [h2] at ht
      simp at ht
    · rw [h2] at ht
      simp only [List.mem_singleton] at ht
      rw [ht]

/-! ## Restart -/

/-- C9: after the restart action, from any reachable state, the week number is
`null`, the wordset index is 0, there are no pairs, the current round and the
study cursor are 0, the three scores are 0, the three answer lists are empty,
the phase is setup, the week input is empty, and no pacing timer is active. -/
theorem restart_resets (s : State) (h : Reachable s) :
    (step .restart s).weekNumber = none ∧
    (step .restart s).wordsetIndex = some 0 ∧
    (step .restart s).pairs = [] ∧
    (step .restart s).currentRound = 0 ∧
    (step .restart s).studyIdx = 0 ∧
    (step .restart s).scoresByRound = [(1, 0), (2, 0), (3, 0)] ∧
    (step .restart s).answersByRound = [(1, []), (2, []), (3, [])] ∧
    (step .restart s).phase = .setup ∧
    (step .restart s).weekInputValue = "" ∧
    (step .restart s).timers = [] := by
  have ht := (timerInv_restartClick s (timerInv_reachable s h)).2
  refine ⟨?_, ?_, ?_, ?_, ?_, rfl, rfl, rfl, rfl, ht⟩ <;>
    (simp only [step, restartClick, setPhase]; split <;> (try cases s.studyTimer) <;> rfl)

/-- Restart during the first study phase stops its timer. -/
theorem restart_resets_witness :
    (step .restart
      (step (.start "2" (.fin ((2 : ℕ) : ℚ)) (fun i => i)) initialState)).timers = [] :=
  (restart_resets (step (.start "2" (.fin ((2 : ℕ) : ℚ)) (fun i => i)) initialState)
    (Reachable.step _ _ Reachable.init rfl)).2.2.2.2.2.2.2.2.2

/-! ## The score invariant -/

theorem scoreInv_congr (s s' : State) (h : ScoreInv s) (h1 : s'.pairs = s.pairs)
    (h2 : s'.roundInputs = s.roundInputs) (h3 : s'.scoresByRound = s.scoresByRound) :
    ScoreInv s' := by
  unfold ScoreInv at *
  rw [h1, h2, h3]
  exact h

theorem clearInterval_pairs (h : Option Nat) (s : State) :
    (clearInterval h s).pairs = s.pairs := by
  cases h <;> rfl

theorem clearInterval_scores (h : Option Nat) (s : State) :
    (clearInterval h s).scoresByRound = s.scoresByRound := by
  cases h <;> rfl

theorem scoreInv_startRound (rnd : Rand) (n : Nat) (s : State) (h : ScoreInv s) :
    ScoreInv (startRound rnd n s) := by
  refine ⟨h.1, ?_, h.2.2⟩
  rw [startRound_length]
  exact h.1

theorem scoreInv_runCallback (cb : Callback) (rnd : Rand) (s : State) (h : ScoreInv s) :
    ScoreInv (settle (runCallback cb rnd s)) := by
  by_cases hmid : s.studyIdx + 1 < s.pairs.length
  · rw [runCallback_mid cb rnd s hmid]
    exact scoreInv_congr s _ h rfl rfl rfl
  · rw [runCallback_end cb rnd s (by omega)]
    apply scoreInv_startRound
    refine ⟨?_, ?_, ?_⟩
    · rw [clearInterval_pairs]
      exact h.1
    · have : (clearInterval s.studyTimer { s with studyIdx := s.studyIdx + 1 }).roundInputs
          = s.roundInputs := by
        cases s.studyTimer <;> rfl
      rw [this]
      exact h.2.1
    · rw [clearInterval_scores]
      exact h.2.2

theorem scoreInv_startStudy (s : State) (h : ScoreInv s) :
    ScoreInv (settle (startStudy s)) := by
  rcases startStudy_cases s with h1 | h1
  · rw [h1]
    exact scoreInv_congr s _ h rfl rfl rfl
  · rw [h1]
    exact scoreInv_congr s _ h rfl rfl rfl

theorem scoreInv_startStudyAgain (n : Nat) (s : State) (h : ScoreInv s) :
    ScoreInv (settle (startStudyAgainThenRound n s)) := by
  rcases startStudyAgainThenRound_cases n s with h1 | h1
  · rw [h1]
    exact scoreInv_congr s _ h rfl rfl rfl
  · rw [h1]
    exact scoreInv_congr s _ h rfl rfl rfl

theorem scoreInv_startClick (draw : Draws) (val : JSNum) (s : State) (h : ScoreInv s) :
    ScoreInv (settle (startClick draw val s)) := by
  unfold startClick
  by_cases hg : (val.falsy || val.lt 1) = true
  · rw [if_pos hg]
    exact h
  · rw [if_neg hg]
    cases hw : wordsetAt (selectWordset val) with
    | none =>
      simp only [hw]
      exact scoreInv_congr s _ h rfl rfl rfl
    | some ws =>
      simp only [hw]
      apply scoreInv_startStudy
      refine ⟨?_, h.2.1, h.2.2⟩
      show (shuffle draw ws).length ≤ 12
      rw [shuffle_length, wordsetAt_length _ ws hw]

theorem scoreInv_submitClick (s : State) (h : ScoreInv s) :
    ScoreInv (settle (submitClick s)) := by
  unfold submitClick
  rcases scoreRound_cases s with hs | ⟨ans, hs⟩
  · rw [hs]
    exact h
  · rw [hs]
    have h1 : ScoreInv { s with
        answersByRound := ans,
        scoresByRound := objSet s.scoresByRound s.currentRound (countMatches s.roundInputs) } := by
      refine ⟨h.1, h.2.1, ?_⟩
      intro k hk
      by_cases e : k = s.currentRound
      · refine ⟨countMatches s.roundInputs, ?_, ?_⟩
        · rw [e]
          exact lookup_objSet_self _ _ _
        · exact le_trans (countMatches_le _) h.2.1
      · obtain ⟨v, hv, hle⟩ := h.2.2 k hk
        refine ⟨v, ?_, hle⟩
        show (objSet s.scoresByRound s.currentRound (countMatches s.roundInputs)).lookup k = some v
        rw [lookup_objSet_ne _ _ _ _ e]
        exact hv
    simp only [continueFlowAfterRound]
    split
    · exact scoreInv_startStudyAgain _ _ h1
    · exact scoreInv_congr _ _ h1 rfl rfl rfl

theorem scoreInv_restartClick (s : State) (h : ScoreInv s) : ScoreInv (restartClick s) := by
  have hp : (restartClick s).pairs = [] := by
    simp only [restartClick, setPhase]
    split <;> (try cases s.studyTimer) <;> rfl
  have hr : (restartClick s).roundInputs = s.roundInputs := by
    simp only [restartClick, setPhase]
    split <;> (try cases s.studyTimer) <;> rfl
  refine ⟨by rw [hp]; exact Nat.zero_le _, by rw [hr]; exact h.2.1, ?_⟩
  intro k hk
  refine ⟨0, ?_, Nat.zero_le _⟩
  show ([(1, 0), (2, 0), (3, 0)] : List (Nat × Nat)).lookup k = some 0
  rcases hk with rfl | rfl | rfl <;> rfl

theorem scoreInv_step (a : Action) (s : State) (h : ScoreInv s) : ScoreInv (step a s) := by
  cases a with
  | start text val draw =>
    exact scoreInv_startClick draw val _ (scoreInv_congr s _ h rfl rfl rfl)
  | tick id rnd =>
    simp only [step, fire]
    cases s.timers.lookup id with
    | none => exact h
    | some cb => exact scoreInv_runCallback cb rnd s h
  | skip rnd => exact scoreInv_runCallback .nextStudyPair rnd s h
  | submit typed =>
    apply scoreInv_submitClick
    refine ⟨h.1, ?_, h.2.2⟩
    show (typeAnswers s.roundInputs typed).length ≤ 12
    rw [typeAnswers_length]
    exact h.2.1
  | restart => exact scoreInv_restartClick s h

theorem scoreInv_reachable (s : State) (h : Reachable s) : ScoreInv s := by
  induction h with
  | init =>
    refine ⟨Nat.zero_le _, Nat.zero_le _, ?_⟩
    intro k hk
    refine ⟨0, ?_, Nat.zero_le _⟩
    rcases hk with rfl | rfl | rfl <;> rfl
  | step a s _ _ ih => exact scoreInv_step a s ih

/-- C7: in every reachable state each of the three stored round scores
`scoresByRound[1]`, `scoresByRound[2]`, `scoresByRound[3]` is a natural number
that is at most 12. -/
theorem scores_in_range (s : State) (h : Reachable s) :
    ∀ k, k = 1 ∨ k = 2 ∨ k = 3 → ∃ v, s.scoresByRound.lookup k = some v ∧ v ≤ 12 :=
  (scoreInv_reachable s h).2.2

/-- The score of round 2 after a start with week 3. -/
theorem scores_in_range_witness :
    ∃ v, (step (.start "3" (.fin ((3 : ℕ) : ℚ)) (fun i => 2 * i))
      initialState).scoresByRound.lookup 2 = some v ∧ v ≤ 12 :=
  scores_in_range (step (.start "3" (.fin ((3 : ℕ) : ℚ)) (fun i => 2 * i)) initialState)
    (Reachable.step _ _ Reachable.init rfl) 2 (Or.inr (Or.inl rfl))

/-! ## Walking through a session -/

theorem lookup_single (id : Nat) (cb : Callback) :
    ([(id, cb)] : List (Nat × Callback)).lookup id = some cb := by
  simp [List.lookup]

/-- Timer ticks from anywhere in a study phase to its end: the callback's
round is started. -/
theorem ticks_to_round (id : Nat) (cb : Callback) (rnd : Rand) :
    ∀ (k : Nat) (s : State), s.timers = [(id, cb)] → s.studyTimer = some id →
      s.studyIdx + (k + 1) = s.pairs.length →
      ∃ sp, ticks id rnd (k + 1) s = startRound rnd (roundOf cb)
        { s with studyIdx := s.pairs.length, timers := [], shownPair := sp }
  | 0, s, ht, hst, hk => by
    refine ⟨s.shownPair, ?_⟩
    have hl : s.timers.lookup id = some cb := by rw [ht]; exact lookup_single id cb
    have e : s.studyIdx + 1 = s.pairs.length := by omega
    simp only [ticks, step, fire, hl]
    rw [runCallback_end cb rnd s (by omega)]
    simp only [settle, hst, clearInterval, ht, e]
    simp
  | k + 1, s, ht, hst, hk => by
    have hmid : s.studyIdx + 1 < s.pairs.length := by omega
    obtain ⟨sp, h⟩ := ticks_to_round id cb rnd k
      { s with studyIdx := s.studyIdx + 1, shownPair := s.pairs[s.studyIdx + 1]? } ht hst
      (by show s.studyIdx + 1 + (k + 1) = s.pairs.length; omega)
    refine ⟨sp, ?_⟩
    have hstep : step (.tick id rnd) s =
        { s with studyIdx := s.studyIdx + 1, shownPair := s.pairs[s.studyIdx + 1]? } := by
      have hl : s.timers.lookup id = some cb := by rw [ht]; exact lookup_single id cb
      simp only [step, fire, hl]
      rw [runCallback_mid cb rnd s hmid]
      rfl
    rw [ticks, hstep, h]

/-- Skip-study clicks from anywhere in a study phase to its end: round 1 is
started, whichever round the study phase precedes. -/
theorem skips_to_round (id : Nat) (cb : Callback) (rnd : Rand) :
    ∀ (k : Nat) (s : State), s.timers = [(id, cb)] → s.studyTimer = some id →
      s.studyIdx + (k + 1) = s.pairs.length →
      ∃ sp, skips rnd (k + 1) s = startRound rnd 1
        { s with studyIdx := s.pairs.length, timers := [], shownPair := sp }
  | 0, s, ht, hst, hk => by
    refine ⟨s.shownPair, ?_⟩
    have h := runCallback_end .nextStudyPair rnd s (by omega)
    simp only [runCallback] at h
    have e : s.studyIdx + 1 = s.pairs.length := by omega
    simp only [skips, step, skipClick, h]
    simp only [settle, hst, clearInterval, ht, roundOf, e]
    simp
  | k + 1, s, ht, hst, hk => by
    have hmid : s.studyIdx + 1 < s.pairs.length := by omega
    obtain ⟨sp, h⟩ := skips_to_round id cb rnd k
      { s with studyIdx := s.studyIdx + 1, shownPair := s.pairs[s.studyIdx + 1]? } ht hst
      (by show s.studyIdx + 1 + (k + 1) = s.pairs.length; omega)
    refine ⟨sp, ?_⟩
    have hstep : step (.skip rnd) s =
        { s with studyIdx := s.studyIdx + 1, shownPair := s.pairs[s.studyIdx + 1]? } := by
      have h2 := runCallback_mid .nextStudyPair rnd s hmid
      simp only [runCallback] at h2
      simp only [step, skipClick, h2]
      rfl
    rw [skips, hstep, h]

/-- What `startRound` establishes over twelve pairs. -/
theorem inRound_startRound (rnd : Rand) (n : Nat) (s : State) (ws : List (String × String))
    (hlen : s.pairs.length = 12) (hperm : List.Perm s.pairs ws) (ht : s.timers = []) :
    InRound (startRound rnd n s) n ws s.scoresByRound s.nextTimerId := by
  refine ⟨rfl, rfl, ?_, hlen, hperm, ht, rfl, rfl, ?_, ?_⟩
  · show ((objSet s.answersByRound n _).lookup n).isSome = true
    rw [lookup_objSet_self]
    rfl
  · rw [startRound_length, hlen]
  · intro inp hinp
    obtain ⟨p, side, h1, _, _, h4, h5⟩ := startRound_items rnd n s inp hinp
    refine ⟨h5, p, List.getElem?_mem h1, ?_⟩
    rw [h4]
    unfold pairAt
    split
    · exact Or.inl rfl
    · exact Or.inr rfl

theorem inRound_ticks (s : State) (n : Nat) (ws : List (String × String))
    (scores : List (Nat × Nat)) (id : Nat) (rnd : Rand) (h : InStudy s n ws scores id) :
    InRound (ticks id rnd 12 s) n ws scores (id + 1) := by
  obtain ⟨_, hidx, hlen, hperm, ⟨cb, ht, hcb⟩, hst, hsc, hnid⟩ := h
  obtain ⟨sp, h1⟩ := ticks_to_round id cb rnd 11 s ht hst (by rw [hidx, hlen])
  rw [h1, hcb, ← hsc, ← hnid]
  exact inRound_startRound rnd n _ ws hlen hperm rfl

theorem inRound_skips (s : State) (n : Nat) (ws : List (String × String))
    (scores : List (Nat × Nat)) (id : Nat) (rnd : Rand) (h : InStudy s n ws scores id) :
    InRound (skips rnd 12 s) 1 ws scores (id + 1) := by
  obtain ⟨_, hidx, hlen, hperm, ⟨cb, ht, hcb⟩, hst, hsc, hnid⟩ := h
  obtain ⟨sp, h1⟩ := skips_to_round id cb rnd 11 s ht hst (by rw [hidx, hlen])
  rw [h1, ← hsc, ← hnid]
  exact inRound_startRound rnd 1 _ ws hlen hperm rfl

theorem startStudyAgainThenRound_ok (n : Nat) (s : State) (hp : 0 < s.pairs.length)
    (ht : s.timers = []) :
    startStudyAgainThenRound n s = .ok { s with
      phase := .study, studyIdx := 0, shownPair := s.pairs[0]?,
      timers := [(s.nextTimerId, .studyAgain n)],
      nextTimerId := s.nextTimerId + 1, studyTimer := some s.nextTimerId } := by
  unfold startStudyAgainThenRound
  simp only [setPhase]
  rw [renderStudyPair_ok { s with phase := .study, studyIdx := 0 } hp]
  cases hst : s.studyTimer with
  | none => simp [truthy, setInterval, hst, ht]
  | some id =>
    by_cases hid : id = 0
    · simp [truthy, setInterval, hst, hid, ht]
    · simp [truthy, setInterval, clearInterval, hst, hid, ht]

theorem submitClick_next (s : State)
    (hans : (s.answersByRound.lookup s.currentRound).isSome = true)
    (hlt : s.currentRound < 3) (hp : 0 < s.pairs.length) (ht : s.timers = []) :
    ∃ ans, submitClick s = .ok { s with
      answersByRound := ans,
      scoresByRound := objSet s.scoresByRound s.currentRound (countMatches s.roundInputs),
      phase := .study, studyIdx := 0, shownPair := s.pairs[0]?,
      timers := [(s.nextTimerId, .studyAgain (s.currentRound + 1))],
      nextTimerId := s.nextTimerId + 1, studyTimer := some s.nextTimerId } := by
  obtain ⟨ans, hs, _⟩ := scoreRound_ok s hans
  refine ⟨ans, ?_⟩
  unfold submitClick
  rw [hs]
  show continueFlowAfterRound _ = _
  unfold continueFlowAfterRound
  rw [if_pos hlt]
  exact startStudyAgainThenRound_ok _ _ hp ht

theorem submitClick_last (s : State)
    (hans : (s.answersByRound.lookup s.currentRound).isSome = true)
    (hge : ¬ s.currentRound < 3) :
    ∃ ans, submitClick s = .ok (showSummary { s with
      answersByRound := ans,
      scoresByRound := objSet s.scoresByRound s.currentRound (countMatches s.roundInputs) }) := by
  obtain ⟨ans, hs, _⟩ := scoreRound_ok s hans
  refine ⟨ans, ?_⟩
  unfold submitClick
  rw [hs]
  show continueFlowAfterRound _ = _
  unfold continueFlowAfterRound
  rw [if_neg hge]

/-- Submitting round `n < 3`: the score of the round is stored and the study
phase before round `n + 1` begins. -/
theorem inStudy_submit (s : State) (n : Nat) (ws : List (String × String))
    (scores : List (Nat × Nat)) (nid : Nat) (typed : List String)
    (h : InRound s n ws scores nid) (hn : n < 3) :
    InStudy (step (.submit typed) s) (n + 1) ws
      (objSet scores n (countMatches (typeAnswers s.roundInputs typed))) nid := by
  obtain ⟨_, rfl, hans, hlen, hperm, ht, rfl, rfl, _, _⟩ := h
  obtain ⟨ans, hs⟩ := submitClick_next { s with roundInputs := typeAnswers s.roundInputs typed }
    hans hn (by show 0 < s.pairs.length; rw [hlen]; decide) ht
  have hstep : step (.submit typed) s =
      settle (submitClick { s with roundInputs := typeAnswers s.roundInputs typed }) := rfl
  rw [hstep, hs]
  exact ⟨rfl, rfl, hlen, hperm, ⟨_, rfl, rfl⟩, rfl, rfl, rfl⟩

/-- Submitting round `n ≥ 3`: the score is stored and the summary shows the
three stored scores. -/
theorem summary_submit (s : State) (n : Nat) (ws : List (String × String))
    (scores : List (Nat × Nat)) (nid : Nat) (typed : List String)
    (h : InRound s n ws scores nid) (hn : ¬ n < 3) :
    ∃ s0 : State,
      s0.scoresByRound = objSet scores n (countMatches (typeAnswers s.roundInputs typed)) ∧
      step (.submit typed) s = showSummary s0 := by
  obtain ⟨_, rfl, hans, _, _, _, rfl, _, _, _⟩ := h
  obtain ⟨ans, hs⟩ := submitClick_last { s with roundInputs := typeAnswers s.roundInputs typed }
    hans hn
  have hstep : step (.submit typed) s =
      settle (submitClick { s with roundInputs := typeAnswers s.roundInputs typed }) := rfl
  rw [hstep, hs]
  exact ⟨_, rfl, rfl⟩

theorem countMatches_targets :
    ∀ (inputs : List RoundInput),
      countMatches (typeAnswers inputs (inputs.map (fun inp => inp.target))) = inputs.length
  | [] => rfl
  | inp :: rest => by
    simp only [List.map_cons, typeAnswers, countMatches_cons, countMatches_targets rest,
      if_true, List.length_cons]

theorem countMatches_zero (inputs : List RoundInput)
    (h : ∀ inp ∈ inputs, normalize inp.value ≠ normalize inp.target) :
    countMatches inputs = 0 := by
  unfold countMatches
  rw [List.countP_eq_zero]
  intro inp hinp
  simpa using h inp hinp

theorem wordset0_words :
    ∀ p ∈ WORDSETS.getD 0 [], normalize "" ≠ normalize p.1 ∧ normalize "" ≠ normalize p.2 := by
  decide

theorem countMatches_empty (s : State) (n : Nat) (scores : List (Nat × Nat)) (nid : Nat)
    (h : InRound s n (WORDSETS.getD 0 []) scores nid) :
    countMatches (typeAnswers s.roundInputs []) = 0 := by
  obtain ⟨_, _, _, _, hperm, _, _, _, _, hitems⟩ := h
  have e : typeAnswers s.roundInputs [] = s.roundInputs := by
    cases s.roundInputs <;> rfl
  rw [e]
  apply countMatches_zero
  intro inp hinp
  obtain ⟨hv, p, hp, ht⟩ := hitems inp hinp
  have hw := wordset0_words p (hperm.mem_iff.mp hp)
  rw [hv]
  rcases ht with ht | ht
  · rw [ht]
    exact hw.1
  · rw [ht]
    exact hw.2

/-- The start action with week 1 from the initial state. -/
theorem inStudy_start (draw : Draws) :
    (step (.start "1" (.fin 1) draw) initialState).wordsetIndex = some 0 ∧
    InStudy (step (.start "1" (.fin 1) draw) initialState) 1 (WORDSETS.getD 0 [])
      [(1, 0), (2, 0), (3, 0)] 1 := by
  have e : (JSNum.fin 1) = .fin ((1 : ℕ) : ℚ) := by norm_num
  obtain ⟨ws, h1, h2, h3⟩ := startClick_natCast draw 1 (le_refl 1)
    { initialState with weekInputValue := "1" }
  have hws : ws = WORDSETS.getD 0 [] := by
    have h0 : WORDSETS[(1 + 2) % 3]? = some (WORDSETS.getD 0 []) := rfl
    rw [h0] at h1
    exact (Option.some.inj h1).symm
  have hstep : step (.start "1" (.fin 1) draw) initialState =
      settle (startClick draw (.fin 1) { initialState with weekInputValue := "1" }) := rfl
  rw [hstep, e, h3]
  refine ⟨rfl, rfl, rfl, ?_, ?_, ⟨_, rfl, rfl⟩, rfl, rfl, rfl⟩
  · show (shuffle draw ws).length = 12
    rw [shuffle_length, h2]
  · show List.Perm (shuffle draw ws) (WORDSETS.getD 0 [])
    rw [← hws]
    exact shuffle_perm _ _

theorem enabled_tick (id : Nat) (cb : Callback) (rnd : Rand) (s : State)
    (ht : s.timers = [(id, cb)]) : enabled (.tick id rnd) s = true := by
  simp [enabled, ht]

/-- The timer ticks of a study phase are steps of the page. -/
theorem reachable_ticks (id : Nat) (cb : Callback) (rnd : Rand) :
    ∀ (k : Nat) (s : State), Reachable s → s.timers = [(id, cb)] →
      s.studyIdx + (k + 1) = s.pairs.length → Reachable (ticks id rnd (k + 1) s)
  | 0, s, hr, ht, _ => Reachable.step _ s hr (enabled_tick id cb rnd s ht)
  | k + 1, s, hr, ht, hk => by
    have hmid : s.studyIdx + 1 < s.pairs.length := by omega
    have hstep : step (.tick id rnd) s =
        { s with studyIdx := s.studyIdx + 1, shownPair := s.pairs[s.studyIdx + 1]? } := by
      have hl : s.timers.lookup id = some cb := by rw [ht]; exact lookup_single id cb
      simp only [step, fire, hl]
      rw [runCallback_mid cb rnd s hmid]
      rfl
    have hr1 := Reachable.step _ s hr (enabled_tick id cb rnd s ht)
    rw [hstep] at hr1
    have h := reachable_ticks id cb rnd k
      { s with studyIdx := s.studyIdx + 1, shownPair := s.pairs[s.studyIdx + 1]? } hr1 ht
      (by show s.studyIdx + 1 + (k + 1) = s.pairs.length; omega)
    rw [ticks, hstep]
    exact h

/-- The skip-study clicks of a study phase are steps of the page. -/
theorem reachable_skips (rnd : Rand) :
    ∀ (k : Nat) (s : State), Reachable s → s.phase = .study →
      s.studyIdx + (k + 1) = s.pairs.length → Reachable (skips rnd (k + 1) s)
  | 0, s, hr, hp, _ => Reachable.step (.skip rnd) s hr (by simp [enabled, hp])
  | k + 1, s, hr, hp, hk => by
    have hmid : s.studyIdx + 1 < s.pairs.length := by omega
    have hstep : step (.skip rnd) s =
        { s with studyIdx := s.studyIdx + 1, shownPair := s.pairs[s.studyIdx + 1]? } := by
      have h2 := runCallback_mid .nextStudyPair rnd s hmid
      simp only [runCallback] at h2
      simp only [step, skipClick, h2]
      rfl
    have hr1 := Reachable.step (.skip rnd) s hr (by simp [enabled, hp])
    rw [hstep] at hr1
    have h := reachable_skips rnd k
      { s with studyIdx := s.studyIdx + 1, shownPair := s.pairs[s.studyIdx + 1]? } hr1 hp
      (by show s.studyIdx + 1 + (k + 1) = s.pairs.length; omega)
    rw [skips, hstep]
    exact h

theorem reachable_ticks_inStudy (s : State) (n : Nat) (ws : List (String × String))
    (scores : List (Nat × Nat)) (id : Nat) (rnd : Rand) (h : InStudy s n ws scores id)
    (hr : Reachable s) : Reachable (ticks id rnd 12 s) := by
  obtain ⟨_, hidx, hlen, _, ⟨cb, ht, _⟩, _, _, _⟩ := h
  exact reachable_ticks id cb rnd 11 s hr ht (by rw [hidx, hlen])

theorem reachable_submit (s : State) (n : Nat) (ws : List (String × String))
    (scores : List (Nat × Nat)) (nid : Nat) (typed : List String)
    (h : InRound s n ws scores nid) (hr : Reachable s) :
    Reachable (step (.submit typed) s) := by
  apply Reachable.step _ s hr
  simp [enabled, h.1]

/-- C8: the session with week 1, for every outcome of the shuffles and of the
cue sides.  Wordset 0 is selected; twelve timer ticks end the study phase and
start round 1; typing every target and submitting stores 12 for round 1 and
begins the study phase again, whose twelve ticks start round 2; submitting
rounds 2 and 3 with every input left empty stores 0 and 0; and the summary
shows `12/12`, `0/12`, `0/12`.  Every action of the run is enabled when it is
taken. -/
theorem end_to_end (d0 : Draws) (r1 r2 r3 : Rand) :
    let s1 := step (.start "1" (.fin 1) d0) initialState
    let s2 := ticks 1 r1 12 s1
    let s3 := step (.submit (s2.roundInputs.map (fun inp => inp.target))) s2
    let s4 := ticks 2 r2 12 s3
    let s5 := step (.submit []) s4
    let s6 := ticks 3 r3 12 s5
    let s7 := step (.submit []) s6
    s1.wordsetIndex = some 0 ∧ s1.phase = .study ∧
    s2.phase = .round ∧ s2.currentRound = 1 ∧
    s3.scoresByRound.lookup 1 = some 12 ∧ s3.phase = .study ∧
    s4.phase = .round ∧ s4.currentRound = 2 ∧
    s5.scoresByRound.lookup 2 = some 0 ∧ s5.phase = .study ∧
    s6.phase = .round ∧ s6.currentRound = 3 ∧
    s7.scoresByRound.lookup 3 = some 0 ∧ s7.phase = .summary ∧
    s7.scoreR1 = "12/12" ∧ s7.scoreR2 = "0/12" ∧ s7.scoreR3 = "0/12" ∧ Reachable s7 := by
  intro s1 s2 s3 s4 s5 s6 s7
  obtain ⟨hw, hS1⟩ := inStudy_start d0
  have hR1 : InRound s2 1 _ _ 2 := inRound_ticks s1 1 _ _ 1 r1 hS1
  have hS2 := inStudy_submit s2 1 _ _ 2 (s2.roundInputs.map (fun inp => inp.target)) hR1
    (by decide)
  rw [countMatches_targets, hR1.2.2.2.2.2.2.2.2.1] at hS2
  have hR2 : InRound s4 2 _ _ 3 := inRound_ticks s3 2 _ _ 2 r2 hS2
  have hS3 := inStudy_submit s4 2 _ _ 3 [] hR2 (by decide)
  rw [countMatches_empty s4 2 _ 3 hR2] at hS3
  have hR3 : InRound s6 3 _ _ 4 := inRound_ticks s5 3 _ _ 3 r3 hS3
  obtain ⟨s0, hs0, h7⟩ := summary_submit s6 3 _ _ 4 [] hR3 (by decide)
  rw [countMatches_empty s6 3 _ 4 hR3] at hs0
  have h7' : s7 = showSummary s0 := h7
  have hr1 : Reachable s1 := Reachable.step _ _ Reachable.init rfl
  have hr2 : Reachable s2 := reachable_ticks_inStudy s1 1 _ _ 1 r1 hS1 hr1
  have hr3 : Reachable s3 := reachable_submit s2 1 _ _ 2 _ hR1 hr2
  have hr4 : Reachable s4 := reachable_ticks_inStudy s3 2 _ _ 2 r2 hS2 hr3
  have hr5 : Reachable s5 := reachable_submit s4 2 _ _ 3 _ hR2 hr4
  have hr6 : Reachable s6 := reachable_ticks_inStudy s5 3 _ _ 3 r3 hS3 hr5
  have hr7 : Reachable s7 := reachable_submit s6 3 _ _ 4 _ hR3 hr6
  refine ⟨hw, hS1.1, hR1.1, hR1.2.1, ?_, hS2.1, hR2.1, hR2.2.1, ?_, hS3.1, hR3.1, hR3.2.1,
    ?_, ?_, ?_, ?_, ?_, hr7⟩
  · rw [hS2.2.2.2.2.2.2.1]
    rfl
  · rw [hS3.2.2.2.2.2.2.1]
    rfl
  · rw [h7']
    show s0.scoresByRound.lookup 3 = some 0
    rw [hs0]
    rfl
  · rw [h7']
    rfl
  · rw [h7']
    show scoreText (setPhase .summary s0) 1 = "12/12"
    unfold scoreText
    show (match s0.scoresByRound.lookup 1 with
      | some v => toString v
      | none => "undefined") ++ "/12" = "12/12"
    rw [hs0]
    rfl
  · rw [h7']
    show (match s0.scoresByRound.lookup 2 with
      | some v => toString v
      | none => "undefined") ++ "/12" = "0/12"
    rw [hs0]
    rfl
  · rw [h7']
    show (match s0.scoresByRound.lookup 3 with
      | some v => toString v
      | none => "undefined") ++ "/12" = "0/12"
    rw [hs0]
    rfl

/-- C4, the failing run: week 1, twelve timer ticks, round 1 submitted.  The
page is then in the study phase that precedes round 2, with the one active
timer set to start round 2, and twelve timer ticks do start round 2; but twelve
skip-study clicks, each enabled when it is made, stop the timer and start
round 1 again. -/
theorem skip_study_restarts_round_one (d0 : Draws) (r1 r2 : Rand) :
    let s1 := step (.start "1" (.fin 1) d0) initialState
    let s2 := ticks 1 r1 12 s1
    let s3 := step (.submit (s2.roundInputs.map (fun inp => inp.target))) s2
    s3.phase = .study ∧ (∃ cb, s3.timers = [(2, cb)] ∧ roundOf cb = 2) ∧
    (ticks 2 r2 12 s3).phase = .round ∧ (ticks 2 r2 12 s3).currentRound = 2 ∧
    (skips r2 12 s3).phase = .round ∧ (skips r2 12 s3).timers = [] ∧
    (skips r2 12 s3).currentRound = 1 ∧ Reachable (skips r2 12 s3) := by
  intro s1 s2 s3
  obtain ⟨_, hS1⟩ := inStudy_start d0
  have hR1 : InRound s2 1 _ _ 2 := inRound_ticks s1 1 _ _ 1 r1 hS1
  have hS2 := inStudy_submit s2 1 _ _ 2 (s2.roundInputs.map (fun inp => inp.target)) hR1
    (by decide)
  have hR2 : InRound (ticks 2 r2 12 s3) 2 _ _ 3 := inRound_ticks s3 2 _ _ 2 r2 hS2
  have hR2' : InRound (skips r2 12 s3) 1 _ _ 3 := inRound_skips s3 2 _ _ 2 r2 hS2
  have hr1 : Reachable s1 := Reachable.step _ _ Reachable.init rfl
  have hr2 : Reachable s2 := reachable_ticks_inStudy s1 1 _ _ 1 r1 hS1 hr1
  have hr3 : Reachable s3 := reachable_submit s2 1 _ _ 2 _ hR1 hr2
  have hr4 : Reachable (skips r2 12 s3) :=
    reachable_skips r2 11 s3 hr3 hS2.1 (by rw [hS2.2.1, hS2.2.2.1])
  exact ⟨hS2.1, hS2.2.2.2.2.1, hR2.1, hR2.2.1, hR2'.1, hR2'.2.2.2.2.2.1, hR2'.2.1, hr4⟩

/-- The timers after a start from the initial state and after submitting round 1. -/
theorem one_pacing_timer_witness :
    (∀ t ∈ (step (.start "2" (.fin 2) (fun i => i)) initialState).timers, t.1 = 1) ∧
    (∀ t ∈ (step (.submit ["ring"])
        (ticks 1 ⟨fun i => i, fun _ => true⟩ 12
          (step (.start "1" (.fin 1) (fun i => i)) initialState))).timers,
      t.1 = (ticks 1 ⟨fun i => i, fun _ => true⟩ 12
          (step (.start "1" (.fin 1) (fun i => i)) initialState)).nextTimerId) :=
  ⟨(one_pacing_timer initialState Reachable.init).2.1 "2" (.fin 2) (fun i => i) rfl,
   (one_pacing_timer _
      (reachable_ticks_inStudy _ 1 _ _ 1 ⟨fun i => i, fun _ => true⟩
        (inStudy_start (fun i => i)).2 (Reachable.step _ _ Reachable.init rfl))).2.2 ["ring"]
      (by
        have h := inRound_ticks _ 1 _ _ 1 ⟨fun i => i, fun _ => true⟩
          (inStudy_start (fun i => i)).2
        simp [enabled, h.1])⟩

end MemoryTest
